import Mathlib

/-!
Verification of the format-normalization and deduplication pipeline of the
Google Maps timeline converter (src App.tsx).

The TypeScript source is shallowly embedded: parsed JSON documents become an
inductive value type, JavaScript numbers become exact rationals (IEEE-754
rounding is abstracted to exact rational arithmetic; the non-finite values
NaN and Infinity are modelled by the absent case of an Option), insertion
ordered JavaScript Map objects become association lists, and the
nondeterministic Math.random tags used in the coordinate dedup pass become an
explicit tag-source parameter.
-/

namespace Timeline

/-- A parsed JSON document, the input shape handed to the pipeline after
JSON.parse (object fields keep document order; JSON.parse keeps one binding
per key). -/
inductive Json where
  | null
  | bool (b : Bool)
  | num (q : Rat)
  | str (s : String)
  | arr (elems : List Json)
  | obj (fields : List (String × Json))

/-- JavaScript truthiness of a JSON value (null, false, 0 and the empty
string are falsy; arrays and objects are always truthy). -/
def Json.truthy : Json → Bool
  | .null => false
  | .bool b => b
  | .num q => decide (q ≠ 0)
  | .str s => decide (s ≠ "")
  | .arr _ => true
  | .obj _ => true

/-- Property access `value.key`: a binding of an object, otherwise absent
(the JavaScript result `undefined`). -/
def Json.getField : Json → String → Option Json
  | .obj fields, k => (fields.find? (fun p => p.1 == k)).map (fun p => p.2)
  | _, _ => none

/-- Object.keys of the value, as the unrecognized-format error message
uses it: an object's own keys, in order; a string's character indices
(Object.keys of a boxed string); no keys for numbers and booleans. Arrays
never reach that message, and a null document throws one line earlier, at
the key-logging line modelled in combineFiles, so neither reaches this
function there. -/
def Json.topKeys : Json → List String
  | .obj fields => fields.map (fun p => p.1)
  | .str s => (List.range s.length).map (fun i => toString i)
  | _ => []

/-- The string payload of a JSON value, when it is a string. -/
def Json.asString : Json → Option String
  | .str s => some s
  | _ => none

/-- Truthiness of a possibly absent value (`undefined` is falsy). -/
def jsTruthy (v : Option Json) : Bool :=
  match v with
  | some j => j.truthy
  | none => false

/-- Product of a rational and an integer, written on the normalized
representation (the library multiplication is irreducible and would not
evaluate under decide); ratMulInt_eq below states the equality with
ordinary multiplication. -/
def ratMulInt (q : Rat) (n : Int) : Rat := mkRat (q.num * n) q.den

/-- JavaScript Math.round: round half toward positive infinity, that is
the floor of q + 1/2, written on the normalized representation;
jsRound_eq below states the equality with the floor form. -/
def jsRound (q : Rat) : Int := (mkRat (2 * q.num + (q.den : Int)) (2 * q.den)).floor

/-- The whitespace skipped by parseFloat before the number. -/
def jsWhitespace (c : Char) : Bool :=
  c == ' ' || c == '\t' || c == '\n' || c == '\r'

/-- Value of a list of decimal digit characters. -/
def digitsVal (ds : List Char) : Nat :=
  ds.foldl (fun a c => 10 * a + (c.toNat - 48)) 0

/-- The unsigned part of parseFloat: longest prefix of the form
digits [. digits] [exponent]; absent when no digit is found (NaN). -/
def parseUnsigned (cs : List Char) : Option Rat :=
  let ip := cs.takeWhile Char.isDigit
  let rest1 := cs.dropWhile Char.isDigit
  let fr :=
    match rest1 with
    | c :: r => if c = '.' then (r.takeWhile Char.isDigit, r.dropWhile Char.isDigit) else ([], rest1)
    | [] => ([], [])
  if ip.isEmpty && fr.1.isEmpty then none
  else
    let baseNum : Nat := digitsVal ip * 10 ^ fr.1.length + digitsVal fr.1
    let baseDen : Nat := 10 ^ fr.1.length
    let expDigits :=
      match fr.2 with
      | c :: r =>
        if c = 'e' || c = 'E' then
          match r with
          | s :: r2 =>
            if s = '+' then (true, r2.takeWhile Char.isDigit)
            else if s = '-' then (false, r2.takeWhile Char.isDigit)
            else (true, r.takeWhile Char.isDigit)
          | [] => (true, ([] : List Char))
        else (true, ([] : List Char))
      | [] => (true, ([] : List Char))
    if expDigits.2.isEmpty then some (mkRat baseNum baseDen)
    else if expDigits.1 then some (mkRat (baseNum * 10 ^ digitsVal expDigits.2) baseDen)
    else some (mkRat baseNum (baseDen * 10 ^ digitsVal expDigits.2))

/-- JavaScript parseFloat on a string: skip leading whitespace, optional
sign, then the longest valid decimal prefix; `none` models a non-finite
result (NaN when nothing parses; the Infinity literal is out of scope for
the inputs this program reads). -/
def parseFloat? (s : String) : Option Rat :=
  let cs := s.data.dropWhile jsWhitespace
  match cs with
  | c :: r =>
    if c = '-' then (parseUnsigned r).map (fun q => -q)
    else if c = '+' then parseUnsigned r
    else parseUnsigned cs
  | [] => none

/-- parseFloat applied to a JSON field value, as in
`parseFloat(visit.probability)`: a number is stringified and reparsed
(exact round trip), a string is parsed, anything else yields NaN. -/
def parseFloatJson (v : Option Json) : Option Rat :=
  match v with
  | some (.num q) => some q
  | some (.str s) => parseFloat? s
  | _ => none

/-- When `pat` is a leading pattern of the list, the remainder after it;
otherwise absent. -/
def dropPattern : List Char → List Char → Option (List Char)
  | [], cs => some cs
  | _ :: _, [] => none
  | p :: ps, c :: cs => if c = p then dropPattern ps cs else none

/-- Whether the pattern (second argument) starts the list (first argument),
as in String.prototype.startsWith. -/
def startsWithChars : List Char → List Char → Bool
  | _, [] => true
  | [], _ :: _ => false
  | c :: cs, p :: ps => c == p && startsWithChars cs ps

/-- String.prototype.replace with a plain-string pattern and empty
replacement: remove only the first occurrence of the pattern. -/
def removeFirstOcc (pat : List Char) : List Char → List Char
  | [] => []
  | c :: cs =>
    match dropPattern pat (c :: cs) with
    | some rest => rest
    | none => c :: removeFirstOcc pat cs

/-- String.prototype.split on a plain-string separator, written with a fuel
argument so that it is structurally recursive (the fuel never runs out when
it starts at the length of the list and the separator is nonempty). -/
def splitFuel (sep : List Char) : Nat → List Char → List Char → List (List Char)
  | _, [], acc => [acc.reverse]
  | 0, cs, acc => [acc.reverse ++ cs]
  | fuel + 1, c :: cs, acc =>
    match dropPattern sep (c :: cs) with
    | some rest => acc.reverse :: splitFuel sep fuel rest []
    | none => splitFuel sep fuel cs (c :: acc)

/-- String.prototype.split on a plain-string separator. -/
def splitChars (sep : List Char) (cs : List Char) : List (List Char) :=
  splitFuel sep cs.length cs []

/-- parseLatLng (App.tsx): accepts the URI form `geo:lat,lng` and the
human readable form `lat°, lng°`; each component is parseFloat of the split
part, so a trailing degree sign is tolerated by prefix parsing. A missing
or empty input yields (0, 0); an unparsable part yields NaN (`none`). -/
def parseLatLng (latLngStr : Option String) : Option Rat × Option Rat :=
  match latLngStr with
  | none => (some 0, some 0)
  | some s =>
    if s = "" then (some 0, some 0)
    else if startsWithChars s.data "geo:".data then
      let coords := (splitChars ",".data (removeFirstOcc "geo:".data s.data)).map String.mk
      ((coords[0]?).bind parseFloat?, (coords[1]?).bind parseFloat?)
    else
      let parts := (splitChars ", ".data (removeFirstOcc "°".data s.data)).map String.mk
      ((parts[0]?).bind parseFloat?, (parts[1]?).bind parseFloat?)

/-- Canonical location: JavaScript numbers are exact rationals, `none`
standing for a non-finite or absent number; the optional string fields use
`none` for an absent (undefined) field. -/
structure Location where
  latitudeE7 : Option Rat
  longitudeE7 : Option Rat
  placeId : Option String := none
  name : Option String := none
  address : Option String := none
  semanticType : Option String := none
deriving DecidableEq, Repr

/-- Opaque start and end timestamps, carried verbatim. -/
structure Duration where
  startTimestamp : Option String
  endTimestamp : Option String
deriving DecidableEq, Repr

/-- Canonical place-visit record. -/
structure PlaceVisit where
  location : Location
  duration : Duration
  centerLatE7 : Option Rat
  centerLngE7 : Option Rat
  visitConfidence : Option Rat
deriving DecidableEq, Repr

/-- One classified activity label with its probability. -/
structure ActivityEntry where
  activityType : String
  probability : Option Rat
deriving DecidableEq, Repr

/-- Canonical activity-segment record; the start and end locations carry
only the scaled coordinate pair (latitudeE7, longitudeE7). -/
structure ActivitySegment where
  startLocation : Option Rat × Option Rat
  endLocation : Option Rat × Option Rat
  duration : Duration
  distance : Option Rat := none
  activities : List ActivityEntry := []
deriving DecidableEq, Repr

/-- The canonical timeline record: a tagged union of exactly one of
PlaceVisit and ActivitySegment. -/
inductive TimelineObject where
  | placeVisit (pv : PlaceVisit)
  | activitySegment (seg : ActivitySegment)
deriving DecidableEq, Repr

/-- Field read of the form `x || dflt` where a nonempty string is kept and
anything falsy or absent yields the default (the sources of the normalizer
store these fields as strings). -/
def strOr (v : Option Json) (dflt : String) : String :=
  match v with
  | some (.str s) => if s = "" then dflt else s
  | _ => dflt

/-- Timestamp read `segment.startTime || segment.startTimestamp` (and the
same for the end): the first truthy of the two field values, kept when it
is a string. -/
def tsField (segment : Json) (k1 k2 : String) : Option String :=
  let v := if jsTruthy (segment.getField k1) then segment.getField k1 else segment.getField k2
  match v with
  | some (.str s) => some s
  | _ => none

/-- Scale to E7: `Math.round(x * 1e7)`, NaN propagating. -/
def toE7 (x : Option Rat) : Option Rat :=
  x.map (fun q => ((jsRound (ratMulInt q 10000000) : Int) : Rat))

/-- The argument effectively passed to parseLatLng for a coordinate-ish
JSON value: a string is passed as is, a falsy value acts as a missing
argument, and a truthy non-string makes parseLatLng throw, which the
per-segment catch turns into skipping the segment (`none`). -/
def latLngArg : Option Json → Option (Option String)
  | some (.str s) => some (some s)
  | some j => if j.truthy then none else some none
  | none => some none

/-- The coordinates of a dual-representation place or endpoint field: a
string is parsed directly; otherwise, when `field.latLng` is truthy it is
parsed (a truthy non-string latLng throws, skipping the segment); otherwise
the coordinates are (0, 0). -/
def coordsOf (field : Option Json) : Option (Option Rat × Option Rat) :=
  match field with
  | some (.str s) => some (parseLatLng (some s))
  | _ =>
    match field.bind (fun pl => pl.getField "latLng") with
    | some lv =>
      if lv.truthy then
        match lv with
        | .str s => some (parseLatLng (some s))
        | _ => none
      else some (some 0, some 0)
    | none => some (some 0, some 0)

/-- Conversion of a `visit` segment (App.tsx lines 105-138). -/
def convertVisit (segment visit : Json) : Option TimelineObject :=
  let topCandidate : Json :=
    match visit.getField "topCandidate" with
    | some j => if j.truthy then j else .obj []
    | none => .obj []
  match coordsOf (topCandidate.getField "placeLocation") with
  | none => none
  | some ll =>
    some (.placeVisit {
      location := {
        latitudeE7 := toE7 ll.1
        longitudeE7 := toE7 ll.2
        placeId := some (strOr (topCandidate.getField "placeId") "")
        name := some (strOr ((topCandidate.getField "placeLocation").bind (fun pl => pl.getField "name")) "")
        address := some (strOr ((topCandidate.getField "placeLocation").bind (fun pl => pl.getField "address")) "")
        semanticType := some (strOr (topCandidate.getField "semanticType") "TYPE_UNKNOWN") }
      duration := {
        startTimestamp := tsField segment "startTime" "startTimestamp"
        endTimestamp := tsField segment "endTime" "endTimestamp" }
      centerLatE7 := toE7 ll.1
      centerLngE7 := toE7 ll.2
      visitConfidence := some ((jsRound (ratMulInt ((parseFloatJson (visit.getField "probability")).getD 0) 100) : Int) : Rat) })

/-- Conversion of an `activity` segment (App.tsx lines 139-181). -/
def convertActivity (segment activity : Json) : Option TimelineObject :=
  match coordsOf (activity.getField "start"), coordsOf (activity.getField "end") with
  | some sc, some ec =>
    let topCandidate : Json :=
      match activity.getField "topCandidate" with
      | some j => if j.truthy then j else .obj []
      | none => .obj []
    let activities : List ActivityEntry :=
      match topCandidate.getField "type" with
      | some (.str s) =>
        if s = "" then []
        else [{ activityType := s, probability := some ((parseFloatJson (topCandidate.getField "probability")).getD 0) }]
      | _ => []
    some (.activitySegment {
      startLocation := (toE7 sc.1, toE7 sc.2)
      endLocation := (toE7 ec.1, toE7 ec.2)
      duration := {
        startTimestamp := tsField segment "startTime" "startTimestamp"
        endTimestamp := tsField segment "endTime" "endTimestamp" }
      distance := some ((parseFloatJson (activity.getField "distanceMeters")).getD 0)
      activities := activities })
  | _, _ => none

/-- Conversion of a `timelinePath` segment (App.tsx lines 182-205): a
nonempty path yields a synthetic activity segment from its first and last
points; an empty path yields no record. -/
def convertPath (segment path : Json) : Option TimelineObject :=
  match path with
  | .arr elems =>
    match elems with
    | [] => none
    | first :: _ =>
      let last := elems.getLastD first
      if first matches .null then none
      else if last matches .null then none
      else
      match latLngArg (first.getField "point"), latLngArg (last.getField "point") with
      | some a1, some a2 =>
        let fp := parseLatLng a1
        let lp := parseLatLng a2
        some (.activitySegment {
          startLocation := (toE7 fp.1, toE7 fp.2)
          endLocation := (toE7 lp.1, toE7 lp.2)
          duration := {
            startTimestamp := tsField segment "startTime" "startTimestamp"
            endTimestamp := tsField segment "endTime" "endTimestamp" } })
      | _, _ => none
  | _ => none

/-- Per-segment dispatch of the normalizer: the three mutually exclusive
shape markers `visit`, `activity`, `timelinePath`, checked for truthiness
in that order; any other shape (or a segment whose processing throws) is
skipped and yields no record. -/
def convertSegment (segment : Json) : Option TimelineObject :=
  if jsTruthy (segment.getField "visit") then
    convertVisit segment ((segment.getField "visit").getD .null)
  else if jsTruthy (segment.getField "activity") then
    convertActivity segment ((segment.getField "activity").getD .null)
  else if jsTruthy (segment.getField "timelinePath") then
    convertPath segment ((segment.getField "timelinePath").getD .null)
  else none

/-- Array.isArray. -/
def isArrJson : Json → Bool
  | .arr _ => true
  | _ => false

/-- Whether the value is the JSON literal null. -/
def isNullJson : Json → Bool
  | .null => true
  | _ => false

/-- The element list of an array value. -/
def arrElems : Json → List Json
  | .arr elems => elems
  | _ => []

/-- The TypeError message (V8 wording) thrown by `segments.forEach(...)`
(App.tsx line 103) when the truthy semanticSegments value is not an
array: strings, numbers, true and plain objects all lack a forEach
method. -/
def forEachTypeErr : String := "segments.forEach is not a function"

/-- convertNewToOld (App.tsx lines 84-213): a top-level array is the
segment list (dialect A); otherwise a truthy `semanticSegments` value is
taken as the segment list (dialect B) — when that value is not an array
the `segments.forEach` call throws a TypeError, which aborts the batch;
otherwise no records are produced (the function logs an error and returns
empty without throwing). Segments are converted independently, in
order. -/
def convertNewToOld (newData : Json) : Except String (List TimelineObject) :=
  if isArrJson newData then .ok ((arrElems newData).filterMap convertSegment)
  else if jsTruthy (newData.getField "semanticSegments") then
    match (newData.getField "semanticSegments").getD .null with
    | .arr elems => .ok (elems.filterMap convertSegment)
    | _ => .error forEachTypeErr
  else .ok []

/-- String.prototype.trim restricted to the ASCII whitespace this program
can meet. -/
def jsTrim (s : String) : String :=
  String.mk (((s.data.dropWhile jsWhitespace).reverse.dropWhile jsWhitespace).reverse)

/-- Truthiness of obj.placeVisit. -/
def isPlaceVisit : TimelineObject → Bool
  | .placeVisit _ => true
  | .activitySegment _ => false

/-- The identifier used by the first dedup pass (App.tsx line 239): the
trimmed placeId when the record is a PlaceVisit whose placeId is truthy and
trims to a nonempty string; otherwise no usable key. -/
def usableKey : TimelineObject → Option String
  | .placeVisit pv =>
    match pv.location.placeId with
    | some s => if s = "" then none else if jsTrim s = "" then none else some (jsTrim s)
    | none => none
  | .activitySegment _ => none

/-- The duplicate-preference test (App.tsx lines 257-260 and 294-297): the
record is a PlaceVisit whose address is truthy and trims to a nonempty
string. -/
def hasAddress : TimelineObject → Bool
  | .placeVisit pv =>
    match pv.location.address with
    | some a => decide (a ≠ "") && decide (jsTrim a ≠ "")
    | none => false
  | .activitySegment _ => false

/-- What a dedup pass pushes for one group: the single record when the
group is a singleton, else the first record bearing an address, else the
first record of the group (App.tsx lines 253-268 and 290-305). -/
def pickSurvivor : List TimelineObject → List TimelineObject
  | [] => []
  | [x] => [x]
  | x :: y :: g =>
    match (x :: y :: g).filter hasAddress with
    | w :: _ => [w]
    | [] => [x]

/-- Insertion-ordered map update modelling the JavaScript pattern
`if (!m.has(k)) m.set(k, []); m.get(k).push(v)`: append v to the group of
k, creating the group at the end of the map when the key is new. -/
def pushGroup {κ α : Type} [DecidableEq κ] : List (κ × List α) → κ → α → List (κ × List α)
  | [], k, v => [(k, [v])]
  | (k0, g) :: rest, k, v =>
    if k0 = k then (k0, g ++ [v]) :: rest
    else (k0, g) :: pushGroup rest k v

/-- Insertion-ordered map update modelling JavaScript `m.set(k, v)`:
overwrite the value in place when the key exists, else append the binding
at the end. -/
def setEntry {κ α : Type} [DecidableEq κ] : List (κ × α) → κ → α → List (κ × α)
  | [], k, v => [(k, v)]
  | (k0, v0) :: rest, k, v =>
    if k0 = k then (k0, v) :: rest
    else (k0, v0) :: setEntry rest k v

/-- One step of the grouping loop of the first dedup pass (App.tsx lines
232-249): a record with a usable placeId joins that identifier group; any
other record is appended to the set-aside list. -/
def pass1Step (acc : List (String × List TimelineObject) × List TimelineObject)
    (obj : TimelineObject) : List (String × List TimelineObject) × List TimelineObject :=
  match usableKey obj with
  | some k => (pushGroup acc.1 k obj, acc.2)
  | none => (acc.1, acc.2 ++ [obj])

/-- The grouping loop of the first dedup pass: the placeId map and the
set-aside records, in encounter order. -/
def pass1 (cleaned : List TimelineObject) :
    List (String × List TimelineObject) × List TimelineObject :=
  cleaned.foldl pass1Step ([], [])

/-- Key space of the coordinate pass: a PlaceVisit record is keyed by the
string `lat,lng` of its scaled coordinates, modelled by the coordinate
pair; every other record is keyed by `activity-r` for a fresh random draw
r, a key no coordinate string equals, modelled by a separate constructor
over the draw. -/
inductive LatLngKey where
  | coord (lat lng : Option Rat)
  | activityTag (t : Nat)
deriving DecidableEq, Repr

/-- The grouping loop of the second dedup pass (App.tsx lines 273-286):
PlaceVisit records are appended to their coordinate group; every other
record is set under a key built from the next tag of the random stream. -/
def pass2Build (rand : Nat → Nat) :
    List TimelineObject → List (LatLngKey × List TimelineObject) → Nat →
    List (LatLngKey × List TimelineObject)
  | [], m, _ => m
  | .activitySegment seg :: rest, m, c =>
    pass2Build rand rest (setEntry m (.activityTag (rand c)) [.activitySegment seg]) (c + 1)
  | .placeVisit pv :: rest, m, c =>
    pass2Build rand rest
      (pushGroup m (.coord pv.location.latitudeE7 pv.location.longitudeE7) (.placeVisit pv)) c

/-- The two-pass deduplication (App.tsx lines 226-308), parameterized by
the stream of Math.random draws used for non-PlaceVisit records. -/
def dedupPass (rand : Nat → Nat) (cleaned : List TimelineObject) : List TimelineObject :=
  let p1 := pass1 cleaned
  let recordsAfterPlaceIdDedup := (p1.1.map (fun e => pickSurvivor e.2)).flatten
  let allRecordsAfterPlaceIdDedup := recordsAfterPlaceIdDedup ++ p1.2
  let m2 := pass2Build rand allRecordsAfterPlaceIdDedup [] 0
  (m2.map (fun e => pickSurvivor e.2)).flatten

/-- The counters reported by cleanData. -/
structure CleanStats where
  removedActivities : Nat
  removedDuplicates : Nat
  totalRemoved : Nat
deriving DecidableEq, Repr

/-- Result of cleanData: the cleaned records and the counters. -/
structure CleanResult where
  cleaned : List TimelineObject
  stats : CleanStats
deriving DecidableEq, Repr

/-- cleanData (App.tsx lines 215-319): optional activity filtering, then
optional two-pass deduplication, with removal counters. -/
def cleanData (removeActivities removeDuplicates : Bool) (rand : Nat → Nat)
    (timelineObjects : List TimelineObject) : CleanResult :=
  let step1 :=
    if removeActivities then
      let c := timelineObjects.filter isPlaceVisit
      (c, timelineObjects.length - c.length)
    else (timelineObjects, 0)
  let step2 :=
    if removeDuplicates then
      let c := dedupPass rand step1.1
      (c, step1.1.length - c.length)
    else (step1.1, 0)
  { cleaned := step2.1
    stats := {
      removedActivities := step1.2
      removedDuplicates := step2.2
      totalRemoved := step1.2 + step2.2 } }

/-- Number of times p divides n, with fuel. -/
def countFactorAux (p : Nat) : Nat → Nat → Nat
  | 0, _ => 0
  | fuel + 1, n =>
    if p ≤ 1 then 0
    else if n = 0 then 0
    else if n % p = 0 then countFactorAux p fuel (n / p) + 1
    else 0

/-- Number of times p divides n. -/
def countFactor (p n : Nat) : Nat := countFactorAux p n n

/-- Exact decimal rendering of a rational whose reduced denominator
divides a power of ten, the form every number printed by this pipeline
has: this models JavaScript number-to-string conversion (which prints the
shortest decimal; on the exact-rational abstraction the shortest decimal
is the exact one). Other denominators fall back to a fraction rendering
(never reached by the pipeline). -/
def ratDecimalString (q : Rat) : String :=
  let sign := if q.num < 0 then "-" else ""
  let d := q.den
  let k := max (countFactor 2 d) (countFactor 5 d)
  if 10 ^ k % d = 0 then
    let scaled := q.num.natAbs * (10 ^ k / d)
    let ds0 := Nat.toDigits 10 scaled
    let ds := if ds0.length ≤ k then List.replicate (k + 1 - ds0.length) '0' ++ ds0 else ds0
    let ipart := ds.take (ds.length - k)
    let fpart := ((ds.drop (ds.length - k)).reverse.dropWhile (fun c => c == '0')).reverse
    if fpart.isEmpty then sign ++ String.mk ipart
    else sign ++ String.mk ipart ++ "." ++ String.mk fpart
  else sign ++ String.mk (Nat.toDigits 10 q.num.natAbs) ++ "/" ++ String.mk (Nat.toDigits 10 d)

/-- String(x / 1e7) for a scaled coordinate: exact decimal rendering of
the division; NaN prints as NaN. -/
def e7Cell (x : Option Rat) : String :=
  match x with
  | some q => ratDecimalString (mkRat q.num (q.den * 10000000))
  | none => "NaN"

/-- The coordinate cell of an activity CSV row, `(x ?? 0) / 1e7`. -/
def e7CellD (x : Option Rat) : String := e7Cell (some (x.getD 0))

/-- String(x) for a carried timestamp (String(undefined) prints
undefined). -/
def tsCell (x : Option String) : String :=
  match x with
  | some s => s
  | none => "undefined"

/-- Field read of the form `x || dflt` on an optional string. -/
def jsOrStr (v : Option String) (dflt : String) : String :=
  match v with
  | some s => if s = "" then dflt else s
  | none => dflt

/-- The activity label of a CSV row,
`as.activities?.[0]?.activityType || 'UNKNOWN'`. -/
def actLabel (activities : List ActivityEntry) : String :=
  match activities with
  | e :: _ => if e.activityType = "" then "UNKNOWN" else e.activityType
  | [] => "UNKNOWN"

/-- The cell list of one CSV row (App.tsx lines 325-353); the canonical
record is a tagged union, so every record yields exactly one row. -/
def csvRow : TimelineObject → List String
  | .placeVisit pv =>
    ["Visit", pv.location.name.getD "", pv.location.address.getD "",
     e7Cell pv.location.latitudeE7, e7Cell pv.location.longitudeE7,
     tsCell pv.duration.startTimestamp, tsCell pv.duration.endTimestamp,
     pv.location.placeId.getD ""]
  | .activitySegment seg =>
    ["Activity", actLabel seg.activities, "",
     e7CellD seg.startLocation.1, e7CellD seg.startLocation.2,
     tsCell seg.duration.startTimestamp, tsCell seg.duration.endTimestamp, ""]

/-- The fixed CSV header row. -/
def csvHeader : List String :=
  ["Type", "Name", "Address", "Latitude", "Longitude", "Start Time", "End Time", "PlaceId"]

/-- The double-quote character. -/
def quoteChar : Char := Char.ofNat 34

/-- Per-character global replacement doubling each double-quote character
and keeping every other character. -/
def doubleQuotes (cs : List Char) : List Char :=
  cs.flatMap (fun c => if c = quoteChar then [quoteChar, quoteChar] else [c])

/-- One CSV cell: the text wrapped in double quotes with internal double
quotes doubled. -/
def csvQuote (s : String) : String :=
  "\"" ++ String.mk (doubleQuotes s.data) ++ "\""

/-- One rendered CSV row: quoted cells joined by commas. -/
def renderRow (row : List String) : String :=
  String.intercalate "," (row.map csvQuote)

/-- convertToCSV (App.tsx lines 321-356): header row then one row per
record, rows joined by newlines. -/
def convertToCSV (data : List TimelineObject) : String :=
  String.intercalate "\n" ((csvHeader :: data.map csvRow).map renderRow)

/-- The apostrophe character. -/
def apostChar : Char := Char.ofNat 39

/-- Entity tail lt; so that an escaped less-than sign is the ampersand
followed by this list. -/
def entLt : List Char := ['l', 't', ';']

/-- Entity tail gt;. -/
def entGt : List Char := ['g', 't', ';']

/-- Entity tail amp;. -/
def entAmp : List Char := ['a', 'm', 'p', ';']

/-- Entity tail quot;. -/
def entQuot : List Char := ['q', 'u', 'o', 't', ';']

/-- Entity tail apos;. -/
def entApos : List Char := ['a', 'p', 'o', 's', ';']

/-- escapeXml's per-character replacement table (App.tsx lines 358-369):
the five XML-unsafe characters become their entities, every other
character is kept. -/
def escapeXmlChar (c : Char) : List Char :=
  if c = '<' then '&' :: entLt
  else if c = '>' then '&' :: entGt
  else if c = '&' then '&' :: entAmp
  else if c = quoteChar then '&' :: entQuot
  else if c = apostChar then '&' :: entApos
  else [c]

/-- escapeXml: global per-character replacement of the five XML-unsafe
characters by their entities. -/
def escapeXml (s : String) : String := String.mk (s.data.flatMap escapeXmlChar)

/-- The fixed KML document header (App.tsx lines 372-384). -/
def kmlHeader : String :=
  "<?xml version=\"1.0\" encoding=\"UTF-8\"?>\n<kml xmlns=\"http://www.opengis.net/kml/2.2\">\n  <Document>\n    <name>Timeline Data</name>\n    <Style id=\"visit\">\n      <IconStyle>\n        <color>ff0000ff</color>\n        <Icon>\n          <href>http://maps.google.com/mapfiles/kml/pushpin/red-pushpin.png</href>\n        </Icon>\n      </IconStyle>\n    </Style>\n"

/-- The placemark emitted for one PlaceVisit (App.tsx lines 387-405): the
name is escaped through escapeXml; the description is a CDATA section
holding the raw address and the two timestamps; coordinates are
longitude,latitude,0. -/
def kmlPlacemark (pv : PlaceVisit) : String :=
  "    <Placemark>\n      <name>" ++ escapeXml (jsOrStr pv.location.name "Unknown Location") ++
  "</name>\n      <description><![CDATA[" ++ jsOrStr pv.location.address "" ++
  "\nStart: " ++ tsCell pv.duration.startTimestamp ++
  "\nEnd: " ++ tsCell pv.duration.endTimestamp ++
  "]]></description>\n      <styleUrl>#visit</styleUrl>\n      <Point>\n        <coordinates>" ++
  e7Cell pv.location.longitudeE7 ++ "," ++ e7Cell pv.location.latitudeE7 ++
  ",0</coordinates>\n      </Point>\n    </Placemark>\n"

/-- convertToKML (App.tsx lines 371-412): header, one placemark per
PlaceVisit in order (ActivitySegments produce nothing), then the closing
tags. -/
def convertToKML (data : List TimelineObject) : String :=
  (data.foldl
    (fun acc obj =>
      match obj with
      | .placeVisit pv => acc ++ kmlPlacemark pv
      | .activitySegment _ => acc)
    kmlHeader) ++ "  </Document>\n</kml>"

/-- splitIntoChunks (App.tsx lines 414-420): consecutive slices of at most
chunkSize records. The source loops `i += chunkSize` and is only ever
called with chunkSize 2000; a zero chunk size (on which the source would
not terminate) returns no chunks here. -/
def splitIntoChunks (chunkSize : Nat) (data : List TimelineObject) : List (List TimelineObject) :=
  if _h : chunkSize = 0 ∨ data = [] then []
  else data.take chunkSize :: splitIntoChunks chunkSize (data.drop chunkSize)
termination_by data.length
decreasing_by
  have h1 : chunkSize ≠ 0 ∧ data ≠ [] := by tauto
  have h2 : 0 < data.length := List.length_pos.mpr h1.2
  simp only [List.length_drop]
  omega

/-- The rational payload of a JSON number. -/
def numVal : Json → Option Rat
  | .num q => some q
  | _ => none

/-- The string payload of an optional JSON value. -/
def strVal : Option Json → Option String
  | some (.str s) => some s
  | _ => none

/-- Legacy decode of a location object (fields read verbatim by the later
stages). -/
def decodeLocation (j : Option Json) : Location :=
  { latitudeE7 := (j.bind (fun l => l.getField "latitudeE7")).bind numVal
    longitudeE7 := (j.bind (fun l => l.getField "longitudeE7")).bind numVal
    placeId := strVal (j.bind (fun l => l.getField "placeId"))
    name := strVal (j.bind (fun l => l.getField "name"))
    address := strVal (j.bind (fun l => l.getField "address"))
    semanticType := strVal (j.bind (fun l => l.getField "semanticType")) }

/-- Legacy decode of a duration object. -/
def decodeDuration (j : Option Json) : Duration :=
  { startTimestamp := strVal (j.bind (fun d => d.getField "startTimestamp"))
    endTimestamp := strVal (j.bind (fun d => d.getField "endTimestamp")) }

/-- Legacy decode of a placeVisit payload. -/
def decodePlaceVisit (j : Json) : PlaceVisit :=
  { location := decodeLocation (j.getField "location")
    duration := decodeDuration (j.getField "duration")
    centerLatE7 := (j.getField "centerLatE7").bind numVal
    centerLngE7 := (j.getField "centerLngE7").bind numVal
    visitConfidence := (j.getField "visitConfidence").bind numVal }

/-- Legacy decode of one activities entry. -/
def decodeActivityEntry (j : Json) : ActivityEntry :=
  { activityType := (strVal (j.getField "activityType")).getD ""
    probability := (j.getField "probability").bind numVal }

/-- Legacy decode of an activitySegment payload. -/
def decodeActivitySegment (j : Option Json) : ActivitySegment :=
  { startLocation :=
      ((j.bind (fun a => a.getField "startLocation")).bind (fun l => (l.getField "latitudeE7").bind numVal),
       (j.bind (fun a => a.getField "startLocation")).bind (fun l => (l.getField "longitudeE7").bind numVal))
    endLocation :=
      ((j.bind (fun a => a.getField "endLocation")).bind (fun l => (l.getField "latitudeE7").bind numVal),
       (j.bind (fun a => a.getField "endLocation")).bind (fun l => (l.getField "longitudeE7").bind numVal))
    duration := decodeDuration (j.bind (fun a => a.getField "duration"))
    distance := (j.bind (fun a => a.getField "distance")).bind numVal
    activities :=
      match j.bind (fun a => a.getField "activities") with
      | some (.arr l) => l.map decodeActivityEntry
      | _ => [] }

/-- Legacy decode of one timelineObjects element into the canonical tagged
union (the source spreads these elements through untouched and the later
stages read exactly the fields decoded here; an element with neither
branch marker is modelled as an empty activity segment, a corner no claim
depends on). -/
def decodeTimelineObject (j : Json) : TimelineObject :=
  if jsTruthy (j.getField "placeVisit") then
    .placeVisit (decodePlaceVisit ((j.getField "placeVisit").getD .null))
  else
    .activitySegment (decodeActivitySegment (j.getField "activitySegment"))

/-- The TypeError message (V8 wording) thrown by the spread
`[...combinedTimelineObjects, ...data.timelineObjects]` (App.tsx line
480) when the truthy timelineObjects value is not iterable: numbers, true
and plain objects. -/
def spreadTypeErr : String := "data.timelineObjects is not iterable"

/-- The records contributed by a legacy file's truthy timelineObjects
value through that spread: an array spreads its elements, decoded in
place; a string is iterable and spreads into its characters, each a junk
record with neither branch marker; any other truthy value is not iterable
and the spread throws, aborting the batch. -/
def decodeLegacy (v : Json) : Except String (List TimelineObject) :=
  match v with
  | .arr l => .ok (l.map decodeTimelineObject)
  | .str s => .ok (s.data.map (fun c => decodeTimelineObject (.str (String.mk [c]))))
  | _ => .error spreadTypeErr

/-- One input file of a run: its name and the outcome of JSON.parse on its
text (the parser is a JavaScript builtin; a failure carries the parser's
message). -/
abbrev InputFile := String × Except String Json

/-- The unrecognized-format error message (App.tsx line 483). -/
def unrecognizedMsg (name : String) (data : Json) : String :=
  "File " ++ name ++ " has unrecognized format. Expected: array (iOS), semanticSegments (Android), or timelineObjects (old format). Found keys: " ++
    String.intercalate ", " data.topKeys

/-- The parse-failure error message (App.tsx line 465). -/
def parseFailMsg (name msg : String) : String :=
  "Failed to parse " ++ name ++ ": " ++ msg

/-- The TypeError message (V8 wording) thrown by `Object.keys(data)` on
the key-logging line (App.tsx line 471) when the parsed document is null
(typeof null is object): it names neither the file nor any keys. -/
def nullKeysTypeErr : String := "Cannot convert undefined or null to object"

/-- The file loop of processFiles (App.tsx lines 454-491): files processed
in order, the first throw aborting the loop with its message. A parse
failure throws the parse message; a null document throws the Object.keys
TypeError at the key-logging line; a dialect A or B file contributes
convertNewToOld's records (or rethrows its forEach TypeError); a legacy
file spreads its timelineObjects value (or throws the not-iterable
TypeError); anything else throws the unrecognized-format message. -/
def combineFiles : List InputFile → Except String (List TimelineObject)
  | [] => .ok []
  | (name, parsed) :: rest =>
    match parsed with
    | .error msg => .error (parseFailMsg name msg)
    | .ok data =>
      if isNullJson data then .error nullKeysTypeErr
      else if isArrJson data || jsTruthy (data.getField "semanticSegments") then
        match convertNewToOld data with
        | .error e => .error e
        | .ok objs =>
          match combineFiles rest with
          | .ok objs2 => .ok (objs ++ objs2)
          | .error e => .error e
      else if jsTruthy (data.getField "timelineObjects") then
        match decodeLegacy ((data.getField "timelineObjects").getD .null) with
        | .error e => .error e
        | .ok objs =>
          match combineFiles rest with
          | .ok objs2 => .ok (objs ++ objs2)
          | .error e => .error e
      else
        .error (unrecognizedMsg name data)

/-- The caller-supplied options of a run. -/
structure Options where
  removeActivities : Bool
  removeDuplicates : Bool
  splitFiles : Bool
deriving DecidableEq, Repr

/-- The output artifacts and counters stored by a successful run (the JSON
artifact is modelled by the cleaned record list it pretty-prints). -/
structure Results where
  oldFormatJson : List TimelineObject
  csv : List String
  kml : List String
  visitCount : Nat
  activityCount : Nat
  totalCount : Nat
  originalCount : Nat
  cleaningStats : CleanStats
deriving DecidableEq, Repr

/-- The artifact step of processFiles (App.tsx lines 503-519): when
splitFiles is on and the cleaned set exceeds 2000 records, one CSV and one
KML per chunk; otherwise one of each for the whole set. -/
def renderArtifacts (split : Bool) (cleaned : List TimelineObject) : List String × List String :=
  if split && decide (cleaned.length > 2000) then
    let chunks := splitIntoChunks 2000 cleaned
    (chunks.map convertToCSV, chunks.map convertToKML)
  else ([convertToCSV cleaned], [convertToKML cleaned])

/-- processFiles (App.tsx lines 439-544): an empty selection is rejected;
the files are combined in order (first fatal error aborting the run with a
single message and no artifacts); the combination is cleaned and rendered. -/
def processFiles (opts : Options) (rand : Nat → Nat) (files : List InputFile) :
    Except String Results :=
  if files.isEmpty then .error "Please upload at least one file"
  else
    match combineFiles files with
    | .error e => .error ("Error processing files: " ++ e)
    | .ok combined =>
      let res := cleanData opts.removeActivities opts.removeDuplicates rand combined
      let artifacts := renderArtifacts opts.splitFiles res.cleaned
      .ok {
        oldFormatJson := res.cleaned
        csv := artifacts.1
        kml := artifacts.2
        visitCount := (res.cleaned.filter isPlaceVisit).length
        activityCount := (res.cleaned.filter (fun o => o matches .activitySegment _)).length
        totalCount := res.cleaned.length
        originalCount := combined.length
        cleaningStats := res.stats }

/-! Bridge lemmas between the normalized-representation arithmetic used in
the executable definitions and the ordinary field operations. -/

theorem ratFloor_eq_intFloor (q : Rat) : q.floor = ⌊q⌋ := by
  apply le_antisymm
  · exact Int.le_floor.mpr (Rat.le_floor.mp le_rfl)
  · exact Rat.le_floor.mpr (Int.le_floor.mp le_rfl)

theorem ratMulInt_eq (q : Rat) (n : Int) : ratMulInt q n = q * n := by
  have hd : ((q.den : Rat)) ≠ 0 := by
    exact_mod_cast q.den_nz
  rw [ratMulInt, Rat.mkRat_eq_div]
  push_cast
  conv_rhs => rw [← Rat.num_div_den q]
  rw [div_mul_eq_mul_div]

theorem jsRound_eq (q : Rat) : jsRound q = ⌊q + 1 / 2⌋ := by
  have hd : ((q.den : Rat)) ≠ 0 := by
    exact_mod_cast q.den_nz
  have hqd : (q.num : Rat) = q * (q.den : Rat) := (div_eq_iff hd).mp (Rat.num_div_den q)
  rw [jsRound, ratFloor_eq_intFloor]
  congr 1
  rw [Rat.mkRat_eq_div]
  push_cast
  rw [div_eq_iff (by positivity)]
  linear_combination (2 : Rat) * hqd

/-! Chunking lemmas. -/

theorem splitChunks_flatten (k : Nat) (hk : k ≠ 0) (l : List TimelineObject) :
    (splitIntoChunks k l).flatten = l := by
  induction l using splitIntoChunks.induct k with
  | case1 l h => simp_all [splitIntoChunks]
  | case2 l h ih =>
    rw [splitIntoChunks, dif_neg h]
    simp [ih, List.take_append_drop]

theorem splitChunks_le (k : Nat) (l : List TimelineObject) :
    ∀ c ∈ splitIntoChunks k l, c.length ≤ k := by
  induction l using splitIntoChunks.induct k with
  | case1 l h => simp_all [splitIntoChunks]
  | case2 l h ih =>
    rw [splitIntoChunks, dif_neg h]
    intro c hc
    rcases List.mem_cons.mp hc with hc | hc
    · subst hc
      simp
    · exact ih c hc

theorem splitChunks_dropLast (k : Nat) (l : List TimelineObject) :
    ∀ c ∈ (splitIntoChunks k l).dropLast, c.length = k := by
  induction l using splitIntoChunks.induct k with
  | case1 l h => simp_all [splitIntoChunks]
  | case2 l h ih =>
    rw [splitIntoChunks, dif_neg h]
    push_neg at h
    intro c hc
    rcases hdrop : splitIntoChunks k (l.drop k) with _ | ⟨c2, cs⟩
    · rw [hdrop] at hc
      simp at hc
    · rw [hdrop, List.dropLast_cons_of_ne_nil (by simp)] at hc
      rcases List.mem_cons.mp hc with hc | hc
      · subst hc
        have hlen : k < l.length := by
          by_contra hle
          push_neg at hle
          have : l.drop k = [] := List.drop_eq_nil_of_le hle
          rw [this] at hdrop
          rw [splitIntoChunks] at hdrop
          simp at hdrop
        simp [List.length_take]
        omega
      · have := ih c
        rw [hdrop] at this
        exact this hc

theorem splitChunks_len4500 (l : List TimelineObject) (h : l.length = 4500) :
    (splitIntoChunks 2000 l).map List.length = [2000, 2000, 500] := by
  have h1 : l ≠ [] := by
    intro e
    rw [e] at h
    simp at h
  rw [splitIntoChunks, dif_neg (by push_neg; exact ⟨by norm_num, h1⟩)]
  have hd1 : (l.drop 2000).length = 2500 := by
    simp only [List.length_drop]
    omega
  have h2 : l.drop 2000 ≠ [] := by
    intro e
    rw [e] at hd1
    simp at hd1
  rw [splitIntoChunks, dif_neg (by push_neg; exact ⟨by norm_num, h2⟩)]
  have hd2 : ((l.drop 2000).drop 2000).length = 500 := by
    simp only [List.length_drop]
    omega
  have h3 : (l.drop 2000).drop 2000 ≠ [] := by
    intro e
    rw [e] at hd2
    simp at hd2
  rw [splitIntoChunks, dif_neg (by push_neg; exact ⟨by norm_num, h3⟩)]
  have hd3 : (((l.drop 2000).drop 2000).drop 2000).length = 0 := by
    simp only [List.length_drop]
    omega
  have h4 : ((l.drop 2000).drop 2000).drop 2000 = [] := List.eq_nil_of_length_eq_zero hd3
  rw [splitIntoChunks, dif_pos (Or.inr h4)]
  simp [List.length_take, h, hd1, hd2]

/-- A concrete sample record used by witnesses. -/
def sampleVisit : TimelineObject := .placeVisit {
  location := {
    latitudeE7 := some 0
    longitudeE7 := some 0
    placeId := some ""
    name := some ""
    address := some ""
    semanticType := some "" }
  duration := { startTimestamp := some "s", endTimestamp := some "e" }
  centerLatE7 := some 0
  centerLngE7 := some 0
  visitConfidence := some 0 }

/-- Claim C4: splitting into chunks is lossless and order-preserving
(concatenating the chunks yields the original sequence), every chunk has at
most 2000 records, every chunk except possibly the last has exactly 2000,
4500 records yield chunks of sizes 2000/2000/500, chunked rendering occurs
only when splitFiles is enabled and the cleaned set exceeds 2000 records,
and otherwise exactly one CSV and one KML artifact is produced. -/
theorem c4_chunking :
    (∀ l : List TimelineObject, (splitIntoChunks 2000 l).flatten = l) ∧
    (∀ l : List TimelineObject, ∀ c ∈ splitIntoChunks 2000 l, c.length ≤ 2000) ∧
    (∀ l : List TimelineObject, ∀ c ∈ (splitIntoChunks 2000 l).dropLast, c.length = 2000) ∧
    (∀ l : List TimelineObject, l.length = 4500 →
      (splitIntoChunks 2000 l).map List.length = [2000, 2000, 500]) ∧
    (∀ (split : Bool) (cleaned : List TimelineObject),
      split = false ∨ cleaned.length ≤ 2000 →
      renderArtifacts split cleaned = ([convertToCSV cleaned], [convertToKML cleaned])) ∧
    (∀ cleaned : List TimelineObject, 2000 < cleaned.length →
      renderArtifacts true cleaned =
        ((splitIntoChunks 2000 cleaned).map convertToCSV,
         (splitIntoChunks 2000 cleaned).map convertToKML)) := by
  refine ⟨fun l => splitChunks_flatten 2000 (by norm_num) l,
          fun l => splitChunks_le 2000 l,
          fun l => splitChunks_dropLast 2000 l,
          fun l h => splitChunks_len4500 l h, ?_, ?_⟩
  · intro split cleaned h
    rcases h with h | h
    · subst h
      simp [renderArtifacts]
    · have : ¬(2000 < cleaned.length) := by omega
      simp [renderArtifacts, this]
  · intro cleaned h
    simp [renderArtifacts, h]

/-- Witness for C4 at concrete inputs. -/
theorem c4_chunking_witness :
    (splitIntoChunks 2000 (List.replicate 4500 sampleVisit)).map List.length = [2000, 2000, 500] ∧
    renderArtifacts false [sampleVisit] = ([convertToCSV [sampleVisit]], [convertToKML [sampleVisit]]) :=
  ⟨c4_chunking.2.2.2.1 (List.replicate 4500 sampleVisit) (List.length_replicate 4500 sampleVisit),
   c4_chunking.2.2.2.2.1 false [sampleVisit] (Or.inl rfl)⟩

/-! CSV quoting: an inverse reading establishes that the quoting is
faithful (every cell wrapped in quotes, internal quotes doubled,
recoverable). -/

/-- Undouble doubled double-quote characters; fails on a lone double
quote, which a properly doubled cell body never contains. -/
def undoubleQuotes : List Char → Option (List Char)
  | [] => some []
  | c :: cs =>
    if c = quoteChar then
      match cs with
      | c2 :: cs2 =>
        if c2 = quoteChar then (undoubleQuotes cs2).map (fun r => quoteChar :: r) else none
      | [] => none
    else (undoubleQuotes cs).map (fun r => c :: r)

/-- Inverse reading of one quoted CSV cell: strip the outer double quotes
and undouble the internal ones. -/
def csvUnquote (s : String) : Option String :=
  match s.data with
  | [] => none
  | c :: rest =>
    if c = quoteChar then
      match rest.reverse with
      | [] => none
      | lastc :: revInit =>
        if lastc = quoteChar then (undoubleQuotes revInit.reverse).map String.mk
        else none
    else none

theorem undoubleQuotes_doubleQuotes (cs : List Char) :
    undoubleQuotes (doubleQuotes cs) = some cs := by
  induction cs with
  | nil => rfl
  | cons c cs ih =>
    by_cases hc : c = quoteChar
    · subst hc
      have h1 : doubleQuotes (quoteChar :: cs) = quoteChar :: quoteChar :: doubleQuotes cs := by
        simp [doubleQuotes]
      rw [h1, undoubleQuotes.eq_def]
      simp [ih]
    · have h1 : doubleQuotes (c :: cs) = c :: doubleQuotes cs := by
        simp [doubleQuotes, hc]
      rw [h1, undoubleQuotes.eq_def]
      simp [hc, ih]

theorem csvUnquote_csvQuote (s : String) : csvUnquote (csvQuote s) = some s := by
  have hdata : (csvQuote s).data = quoteChar :: (doubleQuotes s.data ++ [quoteChar]) := by
    simp [csvQuote, quoteChar]
  rw [csvUnquote.eq_def, hdata]
  simp [List.reverse_append, undoubleQuotes_doubleQuotes]

/-- Claim C9: for every sequence of N canonical TimelineRecords, the CSV
output is the newline-join of exactly N + 1 rows (the fixed header plus
one row per record), each row the comma-join of its cells, each cell
wrapped in double quotes with internal double quotes doubled — faithfully,
as witnessed by the inverse cell reading. -/
theorem c9_csv :
    (∀ data : List TimelineObject,
      convertToCSV data = String.intercalate "\n" ((csvHeader :: data.map csvRow).map renderRow)) ∧
    (∀ data : List TimelineObject, (csvHeader :: data.map csvRow).length = data.length + 1) ∧
    (∀ row : List String, renderRow row = String.intercalate "," (row.map csvQuote)) ∧
    (∀ s : String, (csvQuote s).data = quoteChar :: (doubleQuotes s.data ++ [quoteChar])) ∧
    (∀ s : String, csvUnquote (csvQuote s) = some s) := by
  refine ⟨fun data => rfl, fun data => by simp, fun row => rfl, ?_, fun s => csvUnquote_csvQuote s⟩
  intro s
  simp [csvQuote, quoteChar]

/-! XML escaping: an executable inverse decoder establishes that escapeXml
escapes faithfully. -/

theorem dropPattern_length {pat cs r : List Char} (h : dropPattern pat cs = some r) :
    r.length + pat.length = cs.length := by
  induction pat generalizing cs with
  | nil =>
    rw [dropPattern] at h
    cases h
    simp
  | cons p ps ih =>
    cases cs with
    | nil => simp [dropPattern] at h
    | cons c cs2 =>
      rw [dropPattern] at h
      by_cases hc : c = p
      · rw [if_pos hc] at h
        have := ih h
        simp only [List.length_cons]
        omega
      · rw [if_neg hc] at h
        simp at h

theorem dropPattern_append (pat t : List Char) : dropPattern pat (pat ++ t) = some t := by
  induction pat with
  | nil => rfl
  | cons p ps ih => simp [dropPattern, ih]

theorem dropPattern_ne (p c : Char) (ps cs : List Char) (h : c ≠ p) :
    dropPattern (p :: ps) (c :: cs) = none := by
  rw [dropPattern, if_neg h]

/-- Decoder for XML-escaped text, with fuel to keep the recursion
structural: an ampersand followed by one of the five entity tails decodes
to the corresponding character, everything else is copied. -/
def xmlUnescapeFuel : Nat → List Char → List Char
  | _, [] => []
  | 0, c :: cs => c :: cs
  | fuel + 1, c :: cs =>
    if c = '&' then
      match dropPattern entLt cs with
      | some r => '<' :: xmlUnescapeFuel fuel r
      | none =>
        match dropPattern entGt cs with
        | some r => '>' :: xmlUnescapeFuel fuel r
        | none =>
          match dropPattern entAmp cs with
          | some r => '&' :: xmlUnescapeFuel fuel r
          | none =>
            match dropPattern entQuot cs with
            | some r => quoteChar :: xmlUnescapeFuel fuel r
            | none =>
              match dropPattern entApos cs with
              | some r => apostChar :: xmlUnescapeFuel fuel r
              | none => c :: xmlUnescapeFuel fuel cs
    else c :: xmlUnescapeFuel fuel cs

/-- Decoder for XML-escaped text. -/
def xmlUnescape (s : String) : String :=
  String.mk (xmlUnescapeFuel s.data.length s.data)

theorem length_le_flatMap_escape (cs : List Char) :
    cs.length ≤ (cs.flatMap escapeXmlChar).length := by
  induction cs with
  | nil => simp
  | cons c cs ih =>
    rw [List.flatMap_cons, List.length_append]
    have h1 : 1 ≤ (escapeXmlChar c).length := by
      rw [escapeXmlChar]
      split
      · simp [entLt]
      · split
        · simp [entGt]
        · split
          · simp [entAmp]
          · split
            · simp [entQuot]
            · split
              · simp [entApos]
              · simp
    simp only [List.length_cons]
    omega

theorem dropLt_onGt (t : List Char) : dropPattern entLt (entGt ++ t) = none := by
  rw [entLt, entGt]
  simp [dropPattern]

theorem dropLt_onAmp (t : List Char) : dropPattern entLt (entAmp ++ t) = none := by
  rw [entLt, entAmp]
  simp [dropPattern]

theorem dropGt_onAmp (t : List Char) : dropPattern entGt (entAmp ++ t) = none := by
  rw [entGt, entAmp]
  simp [dropPattern]

theorem dropLt_onQuot (t : List Char) : dropPattern entLt (entQuot ++ t) = none := by
  rw [entLt, entQuot]
  simp [dropPattern]

theorem dropGt_onQuot (t : List Char) : dropPattern entGt (entQuot ++ t) = none := by
  rw [entGt, entQuot]
  simp [dropPattern]

theorem dropAmp_onQuot (t : List Char) : dropPattern entAmp (entQuot ++ t) = none := by
  rw [entAmp, entQuot]
  simp [dropPattern]

theorem dropLt_onApos (t : List Char) : dropPattern entLt (entApos ++ t) = none := by
  rw [entLt, entApos]
  simp [dropPattern]

theorem dropGt_onApos (t : List Char) : dropPattern entGt (entApos ++ t) = none := by
  rw [entGt, entApos]
  simp [dropPattern]

theorem dropAmp_onApos (t : List Char) : dropPattern entAmp (entApos ++ t) = none := by
  rw [entAmp, entApos]
  simp [dropPattern]

theorem dropQuot_onApos (t : List Char) : dropPattern entQuot (entApos ++ t) = none := by
  rw [entQuot, entApos]
  simp [dropPattern]

theorem xmlUnescapeFuel_escape (cs : List Char) (fuel : Nat) (hf : cs.length ≤ fuel) :
    xmlUnescapeFuel fuel (cs.flatMap escapeXmlChar) = cs := by
  induction cs generalizing fuel with
  | nil => simp [xmlUnescapeFuel]
  | cons c cs ih =>
    cases fuel with
    | zero => simp at hf
    | succ f =>
      have hf2 : cs.length ≤ f := by
        simp only [List.length_cons] at hf
        omega
      rw [List.flatMap_cons]
      by_cases h1 : c = '<'
      · subst h1
        have he : escapeXmlChar '<' = '&' :: entLt := by decide
        rw [he, List.cons_append, xmlUnescapeFuel, if_pos rfl, dropPattern_append]
        simp [ih f hf2]
      · by_cases h2 : c = '>'
        · subst h2
          have he : escapeXmlChar '>' = '&' :: entGt := by decide
          rw [he, List.cons_append, xmlUnescapeFuel, if_pos rfl, dropLt_onGt,
            dropPattern_append]
          simp [ih f hf2]
        · by_cases h3 : c = '&'
          · subst h3
            have he : escapeXmlChar '&' = '&' :: entAmp := by decide
            rw [he, List.cons_append, xmlUnescapeFuel, if_pos rfl, dropLt_onAmp,
              dropGt_onAmp, dropPattern_append]
            simp [ih f hf2]
          · by_cases h4 : c = quoteChar
            · subst h4
              have he : escapeXmlChar quoteChar = '&' :: entQuot := by decide
              rw [he, List.cons_append, xmlUnescapeFuel, if_pos rfl, dropLt_onQuot,
                dropGt_onQuot, dropAmp_onQuot, dropPattern_append]
              simp [ih f hf2]
            · by_cases h5 : c = apostChar
              · subst h5
                have he : escapeXmlChar apostChar = '&' :: entApos := by decide
                rw [he, List.cons_append, xmlUnescapeFuel, if_pos rfl, dropLt_onApos,
                  dropGt_onApos, dropAmp_onApos, dropQuot_onApos, dropPattern_append]
                simp [ih f hf2]
              · have hesc : escapeXmlChar c = [c] := by
                  rw [escapeXmlChar, if_neg h1, if_neg h2, if_neg h3, if_neg h4, if_neg h5]
                rw [hesc, List.singleton_append, xmlUnescapeFuel, if_neg h3]
                simp [ih f hf2]

theorem xmlUnescape_escapeXml (s : String) : xmlUnescape (escapeXml s) = s := by
  rw [xmlUnescape, escapeXml]
  have hlen : ((String.mk (s.data.flatMap escapeXmlChar)).data) = s.data.flatMap escapeXmlChar := rfl
  rw [hlen, xmlUnescapeFuel_escape s.data _ (length_le_flatMap_escape s.data)]

theorem escapeXmlChar_no_raw (c0 c : Char) (hmem : c ∈ escapeXmlChar c0)
    (hbad : c = '<' ∨ c = '>' ∨ c = quoteChar ∨ c = apostChar) : False := by
  rw [escapeXmlChar] at hmem
  split at hmem
  · simp only [entLt, List.mem_cons, List.not_mem_nil, or_false] at hmem
    rcases hmem with h | h | h | h <;> subst h <;>
      rcases hbad with h | h | h | h <;> simp [quoteChar, apostChar] at h
  · split at hmem
    · simp only [entGt, List.mem_cons, List.not_mem_nil, or_false] at hmem
      rcases hmem with h | h | h | h <;> subst h <;>
        rcases hbad with h | h | h | h <;> simp [quoteChar, apostChar] at h
    · split at hmem
      · simp only [entAmp, List.mem_cons, List.not_mem_nil, or_false] at hmem
        rcases hmem with h | h | h | h | h <;> subst h <;>
          rcases hbad with h | h | h | h <;> simp [quoteChar, apostChar] at h
      · split at hmem
        · simp only [entQuot, List.mem_cons, List.not_mem_nil, or_false] at hmem
          rcases hmem with h | h | h | h | h | h <;> subst h <;>
            rcases hbad with h | h | h | h <;> simp [quoteChar, apostChar] at h
        · split at hmem
          · simp only [entApos, List.mem_cons, List.not_mem_nil, or_false] at hmem
            rcases hmem with h | h | h | h | h | h <;> subst h <;>
              rcases hbad with h | h | h | h <;> simp [quoteChar, apostChar] at h
          · simp only [List.mem_cons, List.not_mem_nil, or_false] at hmem
            subst hmem
            rcases hbad with h | h | h | h <;> subst h <;> simp_all

theorem escapeXml_no_raw (s : String) (c : Char) (hc : c ∈ (escapeXml s).data) :
    ¬(c = '<' ∨ c = '>' ∨ c = quoteChar ∨ c = apostChar) := by
  intro hbad
  rw [escapeXml] at hc
  rcases List.mem_flatMap.mp hc with ⟨c0, _, hmem⟩
  exact escapeXmlChar_no_raw c0 c hmem hbad

/-- The text one record contributes to the KML body: a placemark for a
PlaceVisit, nothing for an ActivitySegment. -/
def kmlPart : TimelineObject → String
  | .placeVisit pv => kmlPlacemark pv
  | .activitySegment _ => ""

/-- The KML body: the concatenation of every record's contribution, in
order. -/
def kmlBody : List TimelineObject → String
  | [] => ""
  | o :: rest => kmlPart o ++ kmlBody rest

theorem convertToKML_foldl (data : List TimelineObject) (init : String) :
    (data.foldl
      (fun acc obj =>
        match obj with
        | .placeVisit pv => acc ++ kmlPlacemark pv
        | .activitySegment _ => acc)
      init) = init ++ kmlBody data := by
  induction data generalizing init with
  | nil => simp [kmlBody]
  | cons o rest ih =>
    cases o with
    | placeVisit pv =>
      rw [List.foldl_cons]
      rw [ih]
      simp [kmlBody, kmlPart, String.append_assoc]
    | activitySegment seg =>
      rw [List.foldl_cons]
      rw [ih]
      simp [kmlBody, kmlPart]

theorem convertToKML_eq (data : List TimelineObject) :
    convertToKML data = kmlHeader ++ kmlBody data ++ "  </Document>\n</kml>" := by
  rw [convertToKML, convertToKML_foldl]

/-- The place visit refuting claim C2: its address holds a raw ampersand,
its name a raw angle bracket. -/
def pvC2 : PlaceVisit := {
  location := {
    latitudeE7 := some 0
    longitudeE7 := some 0
    placeId := some "P1"
    name := some "A<B"
    address := some "C&D"
    semanticType := some "TYPE_UNKNOWN" }
  duration := { startTimestamp := some "t0", endTimestamp := some "t1" }
  centerLatE7 := some 0
  centerLngE7 := some 0
  visitConfidence := some 0 }

/-- The record refuting claim C2, as a canonical record. -/
def visitC2 : TimelineObject := .placeVisit pvC2

set_option maxRecDepth 40000

/-- Claim C2 counterexample: on the concrete record visitC2 (address
C&D, name A<B) the KML output contains the raw address text C&D while the
escaped form C&amp;D occurs nowhere in it, so Placemark descriptions do
not have XML-unsafe characters escaped; the name is escaped (A&lt;B
occurs). -/
theorem c2_kml_counterexample :
    ("C&D".data <:+: (convertToKML [visitC2]).data) ∧
    ¬ ("C&amp;D".data <:+: (convertToKML [visitC2]).data) ∧
    ("A&lt;B".data <:+: (convertToKML [visitC2]).data) ∧
    escapeXml "C&D" = "C&amp;D" :=
  ⟨by decide, by decide, by decide, by decide⟩

/-- Claim C2 (amended): in the KML output every Placemark name has the
XML-unsafe characters escaped (the escape leaves no raw angle bracket or
quote and is decodable by an inverse), but every Placemark description is
a CDATA section holding the raw, unescaped address and timestamps. -/
theorem c2_kml_escaping :
    (∀ data : List TimelineObject,
      convertToKML data = kmlHeader ++ kmlBody data ++ "  </Document>\n</kml>") ∧
    (∀ pv : PlaceVisit, kmlPart (.placeVisit pv) =
      "    <Placemark>\n      <name>" ++ escapeXml (jsOrStr pv.location.name "Unknown Location") ++
      "</name>\n      <description><![CDATA[" ++ jsOrStr pv.location.address "" ++
      "\nStart: " ++ tsCell pv.duration.startTimestamp ++
      "\nEnd: " ++ tsCell pv.duration.endTimestamp ++
      "]]></description>\n      <styleUrl>#visit</styleUrl>\n      <Point>\n        <coordinates>" ++
      e7Cell pv.location.longitudeE7 ++ "," ++ e7Cell pv.location.latitudeE7 ++
      ",0</coordinates>\n      </Point>\n    </Placemark>\n") ∧
    (∀ seg : ActivitySegment, kmlPart (.activitySegment seg) = "") ∧
    (∀ s : String, xmlUnescape (escapeXml s) = s) ∧
    (∀ s : String, ∀ c ∈ (escapeXml s).data,
      ¬(c = '<' ∨ c = '>' ∨ c = quoteChar ∨ c = apostChar)) :=
  ⟨convertToKML_eq, fun _ => rfl, fun _ => rfl, xmlUnescape_escapeXml,
   fun s c hc => escapeXml_no_raw s c hc⟩

/-- Witness for the amended C2 at a concrete input. -/
theorem c2_kml_escaping_witness :
    ¬(('&' : Char) = '<' ∨ ('&' : Char) = '>' ∨ ('&' : Char) = quoteChar ∨
      ('&' : Char) = apostChar) :=
  c2_kml_escaping.2.2.2.2 "<" '&' (by decide)

/-- The format classes a parsed document can fall into (the segment-array
dialect A and segment-object dialect B are both routed to convertNewToOld,
which distinguishes them on the same tests, App.tsx lines 90-99;
the legacy class is passed through; anything else is the error class
carrying the top-level keys found). -/
inductive FormatClass where
  | dialectA
  | dialectB
  | legacy
  | unrecognized (keys : List String)
deriving DecidableEq, Repr

/-- Format classification as performed by processFiles (App.tsx lines
468-486) together with convertNewToOld's array test: a top-level array is
dialect A; otherwise a truthy semanticSegments field means dialect B;
otherwise a truthy timelineObjects field means the legacy dialect;
otherwise the unrecognized-format error carrying Object.keys of the
value. -/
def classifyFormat (data : Json) : FormatClass :=
  if isArrJson data then .dialectA
  else if jsTruthy (data.getField "semanticSegments") then .dialectB
  else if jsTruthy (data.getField "timelineObjects") then .legacy
  else .unrecognized data.topKeys

/-- One step of the file loop, written out: the equation combineFiles
satisfies on a parsed file. -/
theorem combineFiles_cons (name : String) (data : Json) (rest : List InputFile) :
    combineFiles ((name, .ok data) :: rest) =
      if isNullJson data then .error nullKeysTypeErr
      else if isArrJson data || jsTruthy (data.getField "semanticSegments") then
        match convertNewToOld data with
        | .error e => .error e
        | .ok objs =>
          match combineFiles rest with
          | .ok objs2 => .ok (objs ++ objs2)
          | .error e => .error e
      else if jsTruthy (data.getField "timelineObjects") then
        match decodeLegacy ((data.getField "timelineObjects").getD .null) with
        | .error e => .error e
        | .ok objs =>
          match combineFiles rest with
          | .ok objs2 => .ok (objs ++ objs2)
          | .error e => .error e
      else .error (unrecognizedMsg name data) := rfl

theorem isNullJson_false_of_ne (data : Json) (h : data ≠ .null) :
    isNullJson data = false := by
  cases data <;> simp_all [isNullJson]

/-- A dialect-B visit segment with symbolic field values: placeId, place
name, coordinate string, optional probability, start and end times. -/
def visitSegJson (pid nm s : String) (prob : Option Rat) (t0 t1 : String) : Json :=
  .obj [
    ("visit", .obj
      ([("topCandidate", .obj [
          ("placeId", .str pid),
          ("placeLocation", .obj [("latLng", .str s), ("name", .str nm)])])] ++
        (match prob with
          | some p => [("probability", Json.num p)]
          | none => []))),
    ("startTime", .str t0),
    ("endTime", .str t1)]

/-- The concrete dialect-B document of claim C7. -/
def docC7 : Json :=
  .obj [("semanticSegments", .arr [visitSegJson "P1" "Cafe" "40.0°, -75.0°" (some (mkRat 9 10)) "t0" "t1"])]

theorem toE7_some (x : Rat) :
    toE7 (some x) = some ((⌊x * 10000000 + 1 / 2⌋ : Int) : Rat) := by
  rw [toE7]
  simp only [Option.map_some']
  rw [ratMulInt_eq, jsRound_eq]
  norm_num

theorem jsRound_mul100 (p : Rat) : jsRound (ratMulInt p 100) = ⌊p * 100 + 1 / 2⌋ := by
  rw [ratMulInt_eq, jsRound_eq]
  norm_num

/-- Claim C7: the concrete dialect-B file with latLng 40.0°, -75.0° and
probability 0.9 yields exactly one PlaceVisit with latitudeE7 400000000,
longitudeE7 -750000000 and visitConfidence 90; in general a visit built
from a parsed coordinate string has coordinates floor(d * 1e7 + 1/2)
(Math.round of the scaled degrees, for both the geo: form and the degree
form of the string) and visitConfidence floor(p * 100 + 1/2), with a
missing probability treated as 0. -/
theorem c7_normalizer :
    (convertNewToOld docC7 = .ok [.placeVisit {
      location := {
        latitudeE7 := some 400000000
        longitudeE7 := some (-750000000)
        placeId := some "P1"
        name := some "Cafe"
        address := some ""
        semanticType := some "TYPE_UNKNOWN" }
      duration := { startTimestamp := some "t0", endTimestamp := some "t1" }
      centerLatE7 := some 400000000
      centerLngE7 := some (-750000000)
      visitConfidence := some 90 }]) ∧
    (parseLatLng (some "40.0°, -75.0°") = (some 40, some (-75))) ∧
    (parseLatLng (some "geo:40.0,-75.0") = (some 40, some (-75))) ∧
    (∀ x : Rat, toE7 (some x) = some ((⌊x * 10000000 + 1 / 2⌋ : Int) : Rat)) ∧
    (∀ (pid nm s t0 t1 : String) (p : Rat), pid ≠ "" → nm ≠ "" → s ≠ "" → t0 ≠ "" → t1 ≠ "" →
      convertNewToOld (.obj [("semanticSegments", .arr [visitSegJson pid nm s (some p) t0 t1])]) =
        .ok [.placeVisit {
          location := {
            latitudeE7 := toE7 (parseLatLng (some s)).1
            longitudeE7 := toE7 (parseLatLng (some s)).2
            placeId := some pid
            name := some nm
            address := some ""
            semanticType := some "TYPE_UNKNOWN" }
          duration := { startTimestamp := some t0, endTimestamp := some t1 }
          centerLatE7 := toE7 (parseLatLng (some s)).1
          centerLngE7 := toE7 (parseLatLng (some s)).2
          visitConfidence := some ((⌊p * 100 + 1 / 2⌋ : Int) : Rat) }]) ∧
    (∀ (pid nm s t0 t1 : String), pid ≠ "" → nm ≠ "" → s ≠ "" →
      (convertNewToOld (.obj [("semanticSegments", .arr [visitSegJson pid nm s none t0 t1])])).map
          (fun objs => objs.map (fun o => match o with
            | .placeVisit pv => pv.visitConfidence
            | .activitySegment _ => none)) = .ok [some 0]) := by
  refine ⟨rfl, by decide, by decide, toE7_some, ?_, ?_⟩
  · intro pid nm s t0 t1 p hpid hnm hs ht0 ht1
    rw [← jsRound_mul100]
    simp [convertNewToOld, isArrJson, Option.getD, visitSegJson, convertSegment, convertVisit,
      Json.getField, jsTruthy, Json.truthy, coordsOf, strOr, tsField, parseFloatJson,
      hpid, hnm, hs, ht0, ht1]
  · intro pid nm s t0 t1 hpid hnm hs
    have hz : jsRound (ratMulInt ((0 : Rat)) 100) = 0 := by decide
    simp [convertNewToOld, isArrJson, Option.getD, visitSegJson, convertSegment, convertVisit,
      Json.getField, jsTruthy, Json.truthy, coordsOf, strOr, tsField, parseFloatJson,
      hpid, hnm, hs, hz, Except.map]

/-- Witness for C7 at a concrete input. -/
theorem c7_normalizer_witness :
    convertNewToOld (.obj [("semanticSegments", .arr [visitSegJson "P2" "Bar" "geo:1.5,-2.25" (some (mkRat 1 2)) "a" "b"])]) =
      .ok [.placeVisit {
        location := {
          latitudeE7 := toE7 (parseLatLng (some "geo:1.5,-2.25")).1
          longitudeE7 := toE7 (parseLatLng (some "geo:1.5,-2.25")).2
          placeId := some "P2"
          name := some "Bar"
          address := some ""
          semanticType := some "TYPE_UNKNOWN" }
        duration := { startTimestamp := some "a", endTimestamp := some "b" }
        centerLatE7 := toE7 (parseLatLng (some "geo:1.5,-2.25")).1
        centerLngE7 := toE7 (parseLatLng (some "geo:1.5,-2.25")).2
        visitConfidence := some ((⌊(mkRat 1 2) * 100 + 1 / 2⌋ : Int) : Rat) }] :=
  c7_normalizer.2.2.2.2.1 "P2" "Bar" "geo:1.5,-2.25" "a" "b" (mkRat 1 2)
    (by decide) (by decide) (by decide) (by decide) (by decide)

/-- Whether the file loop processes this file without throwing: it
parsed, is not null, and either classifies as dialect A or B with a
segment list convertNewToOld accepts, or as legacy with an iterable
timelineObjects value. -/
def fileOkB : InputFile → Bool
  | (_, .error _) => false
  | (_, .ok data) =>
    if isNullJson data then false
    else if isArrJson data || jsTruthy (data.getField "semanticSegments") then
      match convertNewToOld data with
      | .error _ => false
      | .ok _ => true
    else if jsTruthy (data.getField "timelineObjects") then
      match decodeLegacy ((data.getField "timelineObjects").getD .null) with
      | .error _ => false
      | .ok _ => true
    else false

/-- The error message a fatal file makes the loop throw, when it is
fatal: the parse-failure message, the Object.keys TypeError on null, the
forEach or spread TypeError of a wrongly-typed dialect value, or the
unrecognized-format message. -/
def fatalMsg : InputFile → Option String
  | (name, .error msg) => some (parseFailMsg name msg)
  | (name, .ok data) =>
    if isNullJson data then some nullKeysTypeErr
    else if isArrJson data || jsTruthy (data.getField "semanticSegments") then
      match convertNewToOld data with
      | .error e => some e
      | .ok _ => none
    else if jsTruthy (data.getField "timelineObjects") then
      match decodeLegacy ((data.getField "timelineObjects").getD .null) with
      | .error e => some e
      | .ok _ => none
    else some (unrecognizedMsg name data)

theorem classify_cases (data : Json) :
    (isArrJson data = true ∧ classifyFormat data = .dialectA) ∨
    (isArrJson data = false ∧ jsTruthy (data.getField "semanticSegments") = true ∧
      classifyFormat data = .dialectB) ∨
    (isArrJson data = false ∧ jsTruthy (data.getField "semanticSegments") = false ∧
      jsTruthy (data.getField "timelineObjects") = true ∧ classifyFormat data = .legacy) ∨
    (isArrJson data = false ∧ jsTruthy (data.getField "semanticSegments") = false ∧
      jsTruthy (data.getField "timelineObjects") = false ∧
      classifyFormat data = .unrecognized data.topKeys) := by
  by_cases ha : isArrJson data
  · exact Or.inl ⟨ha, by simp [classifyFormat, ha]⟩
  · simp only [Bool.not_eq_true] at ha
    by_cases hs : jsTruthy (data.getField "semanticSegments")
    · exact Or.inr (Or.inl ⟨ha, hs, by simp [classifyFormat, ha, hs]⟩)
    · simp only [Bool.not_eq_true] at hs
      by_cases ht : jsTruthy (data.getField "timelineObjects")
      · exact Or.inr (Or.inr (Or.inl ⟨ha, hs, ht, by simp [classifyFormat, ha, hs, ht]⟩))
      · simp only [Bool.not_eq_true] at ht
        exact Or.inr (Or.inr (Or.inr ⟨ha, hs, ht, by simp [classifyFormat, ha, hs, ht]⟩))

/-- A fatal file at the head of the loop aborts it with exactly its
message. -/
theorem combineFiles_cons_fatal (bad : InputFile) (rest : List InputFile) (msg : String)
    (hbad : fatalMsg bad = some msg) :
    combineFiles (bad :: rest) = .error msg := by
  obtain ⟨name, parsed⟩ := bad
  cases parsed with
  | error m =>
    rw [fatalMsg] at hbad
    simp only [Option.some.injEq] at hbad
    rw [combineFiles, ← hbad]
  | ok data =>
    rw [fatalMsg] at hbad
    rw [combineFiles_cons]
    by_cases hn : isNullJson data
    · rw [if_pos hn] at hbad
      simp only [Option.some.injEq] at hbad
      rw [if_pos hn, hbad]
    · rw [if_neg hn] at hbad
      rw [if_neg hn]
      by_cases hab : (isArrJson data || jsTruthy (data.getField "semanticSegments")) = true
      · rw [if_pos hab] at hbad
        rw [if_pos hab]
        cases hcv : convertNewToOld data with
        | error e =>
          rw [hcv] at hbad
          simp only [Option.some.injEq] at hbad
          rw [hbad]
        | ok objs =>
          rw [hcv] at hbad
          simp at hbad
      · simp only [Bool.not_eq_true] at hab
        rw [if_neg (by simp [hab])] at hbad
        rw [if_neg (by simp [hab])]
        by_cases ht : jsTruthy (data.getField "timelineObjects")
        · rw [if_pos ht] at hbad
          rw [if_pos ht]
          cases hdl : decodeLegacy ((data.getField "timelineObjects").getD .null) with
          | error e =>
            rw [hdl] at hbad
            simp only [Option.some.injEq] at hbad
            rw [hbad]
          | ok objs =>
            rw [hdl] at hbad
            simp at hbad
        · rw [if_neg ht] at hbad
          rw [if_neg ht]
          simp only [Option.some.injEq] at hbad
          rw [hbad]

/-- A non-fatal file at the head of the loop only contributes records:
the rest of the loop proceeds unchanged. -/
theorem combineFiles_cons_ok (g : InputFile) (rest : List InputFile)
    (hg : fileOkB g = true) :
    ∃ objs, combineFiles (g :: rest) =
      (combineFiles rest).map (fun objs2 => objs ++ objs2) := by
  obtain ⟨name, parsed⟩ := g
  cases parsed with
  | error m => simp [fileOkB] at hg
  | ok data =>
    rw [fileOkB] at hg
    rw [combineFiles_cons]
    by_cases hn : isNullJson data
    · rw [if_pos hn] at hg
      simp at hg
    · rw [if_neg hn] at hg
      rw [if_neg hn]
      by_cases hab : (isArrJson data || jsTruthy (data.getField "semanticSegments")) = true
      · rw [if_pos hab] at hg
        rw [if_pos hab]
        cases hcv : convertNewToOld data with
        | error e =>
          rw [hcv] at hg
          simp at hg
        | ok objs =>
          refine ⟨objs, ?_⟩
          cases combineFiles rest <;> simp [Except.map]
      · simp only [Bool.not_eq_true] at hab
        rw [if_neg (by simp [hab])] at hg
        rw [if_neg (by simp [hab])]
        by_cases ht : jsTruthy (data.getField "timelineObjects")
        · rw [if_pos ht] at hg
          rw [if_pos ht]
          cases hdl : decodeLegacy ((data.getField "timelineObjects").getD .null) with
          | error e =>
            rw [hdl] at hg
            simp at hg
          | ok objs =>
            refine ⟨objs, ?_⟩
            cases combineFiles rest <;> simp [Except.map]
        · rw [if_neg ht] at hg
          simp at hg

theorem combineFiles_abort (good : List InputFile) (bad : InputFile) (rest : List InputFile)
    (msg : String) (hgood : ∀ f ∈ good, fileOkB f = true) (hbad : fatalMsg bad = some msg) :
    combineFiles (good ++ bad :: rest) = .error msg := by
  induction good with
  | nil =>
    rw [List.nil_append]
    exact combineFiles_cons_fatal bad rest msg hbad
  | cons g good2 ih =>
    have hg : fileOkB g = true := hgood g (List.mem_cons_self g good2)
    have hrest : ∀ f ∈ good2, fileOkB f = true :=
      fun f hf => hgood f (List.mem_cons_of_mem g hf)
    rw [List.cons_append]
    rcases combineFiles_cons_ok g (good2 ++ bad :: rest) hg with ⟨objs, hobjs⟩
    rw [hobjs, ih hrest]
    rfl

/-- Claim C8: for a batch whose first fatal file is `bad` — a parse
failure, a null document (Object.keys TypeError), a dialect file whose
segment or record list value has the wrong type (forEach or spread
TypeError), or an unrecognized format — preceded by files the loop
handles and followed by arbitrary files, the run aborts with exactly the
single message of that first fatal file (so later files are never
attempted: the result does not depend on them), and processFiles surfaces
that one message as an error result, which carries no CSV, KML or JSON
artifacts. -/
theorem c8_batch_abort :
    (∀ (good : List InputFile) (bad : InputFile) (rest : List InputFile) (msg : String),
      (∀ f ∈ good, fileOkB f = true) → fatalMsg bad = some msg →
      combineFiles (good ++ bad :: rest) = .error msg) ∧
    (∀ (opts : Options) (rand : Nat → Nat) (good : List InputFile) (bad : InputFile)
        (rest : List InputFile) (msg : String),
      (∀ f ∈ good, fileOkB f = true) → fatalMsg bad = some msg →
      processFiles opts rand (good ++ bad :: rest) =
        .error ("Error processing files: " ++ msg)) ∧
    (∀ (name m : String), fatalMsg (name, .error m) = some (parseFailMsg name m)) ∧
    (∀ name : String, fatalMsg (name, .ok .null) = some nullKeysTypeErr) ∧
    (∀ (name : String) (data : Json) (keys : List String), data ≠ Json.null →
      classifyFormat data = .unrecognized keys →
      fatalMsg (name, .ok data) = some (unrecognizedMsg name data)) := by
  refine ⟨combineFiles_abort, ?_, fun name m => rfl, fun name => rfl, ?_⟩
  · intro opts rand good bad rest msg hgood hbad
    rw [processFiles]
    rw [if_neg (by simp)]
    rw [combineFiles_abort good bad rest msg hgood hbad]
  · intro name data keys hne hcls
    have harr : isArrJson data = false := by
      by_contra hno
      simp only [Bool.not_eq_false] at hno
      simp [classifyFormat, hno] at hcls
    have hsem : jsTruthy (data.getField "semanticSegments") = false := by
      by_contra hno
      simp only [Bool.not_eq_false] at hno
      simp [classifyFormat, harr, hno] at hcls
    have htl : jsTruthy (data.getField "timelineObjects") = false := by
      by_contra hno
      simp only [Bool.not_eq_false] at hno
      simp [classifyFormat, harr, hsem, hno] at hcls
    rw [fatalMsg, if_neg (by simp [isNullJson_false_of_ne data hne]),
      if_neg (by simp [harr, hsem]), if_neg (by simp [htl])]

/-- Witness for C8 at concrete inputs: a valid legacy file precedes a
dialect-B file whose semanticSegments value is a plain object, on which
the loop throws the forEach TypeError; a later file is present but never
influences the result. -/
theorem c8_batch_abort_witness :
    combineFiles
        [("g.json", .ok (Json.obj [("timelineObjects", Json.arr [])])),
         ("b.json", .ok (Json.obj [("semanticSegments", Json.obj [])])),
         ("later.json", .error "never read")] =
      .error forEachTypeErr :=
  c8_batch_abort.1
    [("g.json", .ok (Json.obj [("timelineObjects", Json.arr [])]))]
    ("b.json", .ok (Json.obj [("semanticSegments", Json.obj [])]))
    [("later.json", .error "never read")]
    forEachTypeErr
    (by intro f hf; simp only [List.mem_singleton] at hf; subst hf; rfl)
    rfl

/-! Generic lemmas about the insertion-ordered grouping maps. -/

/-- Grouping a keyed list with pushGroup, left to right. -/
def groupByKey {κ α : Type} [DecidableEq κ] (l : List (κ × α)) : List (κ × List α) :=
  l.foldl (fun m p => pushGroup m p.1 p.2) []

/-- The distinct elements of a list, keeping the first occurrence of each,
in order. -/
def firstOccs {κ : Type} [DecidableEq κ] (ks : List κ) : List κ :=
  ks.foldl (fun acc k => if k ∈ acc then acc else acc ++ [k]) []

theorem firstOccs_append {κ : Type} [DecidableEq κ] (ks : List κ) (k : κ) :
    firstOccs (ks ++ [k]) =
      if k ∈ firstOccs ks then firstOccs ks else firstOccs ks ++ [k] := by
  rw [firstOccs, List.foldl_append]
  rfl

theorem mem_firstOccs {κ : Type} [DecidableEq κ] (ks : List κ) (k : κ) :
    k ∈ firstOccs ks ↔ k ∈ ks := by
  induction ks using List.reverseRecOn with
  | nil => simp [firstOccs]
  | append_singleton ks k2 ih =>
    rw [firstOccs_append]
    by_cases h : k2 ∈ firstOccs ks
    · rw [if_pos h]
      simp only [List.mem_append, List.mem_singleton]
      constructor
      · intro hk
        exact Or.inl (ih.mp hk)
      · intro hk
        rcases hk with hk | hk
        · exact ih.mpr hk
        · subst hk
          exact h
    · rw [if_neg h]
      simp [ih]

theorem firstOccs_nodup {κ : Type} [DecidableEq κ] (ks : List κ) :
    (firstOccs ks).Nodup := by
  induction ks using List.reverseRecOn with
  | nil => simp [firstOccs]
  | append_singleton ks k2 ih =>
    rw [firstOccs_append]
    by_cases h : k2 ∈ firstOccs ks
    · rw [if_pos h]
      exact ih
    · rw [if_neg h]
      simp [List.nodup_append, ih, h]

theorem firstOccs_of_nodup {κ : Type} [DecidableEq κ] (ks : List κ) (h : ks.Nodup) :
    firstOccs ks = ks := by
  induction ks using List.reverseRecOn with
  | nil => rfl
  | append_singleton ks k2 ih =>
    rw [List.nodup_append] at h
    rw [firstOccs_append, ih h.1]
    rw [if_neg ?hno]
    case hno =>
      intro hmem
      exact h.2.2 hmem (List.mem_singleton_self k2)

theorem map_update_id {κ α : Type} [DecidableEq κ] (m : List (κ × List α)) (k : κ) (v : α)
    (h : k ∉ m.map Prod.fst) :
    m.map (fun e => if e.1 = k then (e.1, e.2 ++ [v]) else e) = m := by
  induction m with
  | nil => rfl
  | cons e m ih =>
    simp only [List.map_cons, List.mem_cons] at h
    push_neg at h
    rw [List.map_cons, if_neg (fun he => h.1 he.symm), ih h.2]

theorem pushGroup_of_mem {κ α : Type} [DecidableEq κ] (m : List (κ × List α)) (k : κ) (v : α)
    (hnd : (m.map Prod.fst).Nodup) (h : k ∈ m.map Prod.fst) :
    pushGroup m k v = m.map (fun e => if e.1 = k then (e.1, e.2 ++ [v]) else e) := by
  induction m with
  | nil => simp at h
  | cons e m ih =>
    obtain ⟨k0, g⟩ := e
    simp only [List.map_cons, List.nodup_cons] at hnd
    by_cases hk : k0 = k
    · subst hk
      rw [pushGroup, if_pos rfl]
      simp only [List.map_cons, if_pos rfl]
      rw [map_update_id m k0 v hnd.1]
      simp
    · rw [pushGroup, if_neg hk]
      simp only [List.map_cons]
      rw [ih hnd.2 (by simpa [Ne.symm hk] using h)]
      simp [hk]

theorem pushGroup_of_not_mem {κ α : Type} [DecidableEq κ] (m : List (κ × List α)) (k : κ)
    (v : α) (h : k ∉ m.map Prod.fst) :
    pushGroup m k v = m ++ [(k, [v])] := by
  induction m with
  | nil => rfl
  | cons e m ih =>
    simp only [List.map_cons, List.mem_cons] at h
    push_neg at h
    rw [pushGroup, if_neg (fun he => h.1 he.symm), ih h.2]
    rfl

/-- The central characterization of the grouping loop: keys appear in
first-occurrence order and each key's group is the ordered filter of the
values carrying it. -/
theorem groupByKey_eq {κ α : Type} [DecidableEq κ] (l : List (κ × α)) :
    groupByKey l = (firstOccs (l.map Prod.fst)).map
      (fun k => (k, (l.filter (fun p => p.1 = k)).map Prod.snd)) := by
  induction l using List.reverseRecOn with
  | nil => rfl
  | append_singleton l p ih =>
    obtain ⟨k, v⟩ := p
    rw [groupByKey, List.foldl_append]
    rw [show (List.foldl (fun m p => pushGroup m p.1 p.2) [] l) = groupByKey l from rfl]
    simp only [List.foldl_cons, List.foldl_nil]
    rw [ih]
    have hkeys : ((firstOccs (l.map Prod.fst)).map
        (fun k => (k, (l.filter (fun p => p.1 = k)).map Prod.snd))).map Prod.fst =
        firstOccs (l.map Prod.fst) := by
      rw [List.map_map]
      exact List.map_id _
    rw [List.map_append, List.map_singleton, firstOccs_append]
    by_cases hmem : k ∈ firstOccs (l.map Prod.fst)
    · rw [if_pos hmem]
      rw [pushGroup_of_mem _ k v (by rw [hkeys]; exact firstOccs_nodup _) (by rw [hkeys]; exact hmem)]
      rw [List.map_map]
      apply List.map_congr_left
      intro k2 hk2
      simp only [Function.comp]
      by_cases hkk : k2 = k
      · subst hkk
        rw [if_pos rfl]
        simp only [Prod.mk.injEq, true_and]
        rw [List.filter_append, List.map_append]
        simp
      · rw [if_neg hkk]
        simp only [Prod.mk.injEq, true_and]
        rw [List.filter_append]
        simp [Ne.symm hkk]
    · rw [if_neg hmem]
      rw [pushGroup_of_not_mem _ k v (by rw [hkeys]; exact hmem)]
      rw [List.map_append]
      congr 1
      · apply List.map_congr_left
        intro k2 hk2
        have hkk : ¬(k = k2) := fun he => hmem (he ▸ hk2)
        simp only [Prod.mk.injEq, true_and]
        rw [List.filter_append]
        simp [hkk]
      · simp only [List.map_singleton, Prod.mk.injEq, true_and]
        have hfil : l.filter (fun p => p.1 = k) = [] := by
          rw [List.filter_eq_nil_iff]
          intro p hp
          simp only [decide_eq_true_eq]
          intro he
          exact hmem ((mem_firstOccs _ _).mpr (List.mem_map.mpr ⟨p, hp, he⟩))
        rw [List.filter_append, hfil]
        simp

/-- Splitting a keyed list into its per-key filters, over a duplicate-free
key cover, is a permutation. -/
theorem partition_perm {κ α : Type} [DecidableEq κ] (ks : List κ) (l : List (κ × α))
    (hks : ks.Nodup) (hall : ∀ p ∈ l, p.1 ∈ ks) :
    (ks.map (fun k => l.filter (fun p => p.1 = k))).flatten.Perm l := by
  induction ks generalizing l with
  | nil =>
    cases l with
    | nil => simp
    | cons p l => exact absurd (hall p (List.mem_cons_self p l)) (by simp)
  | cons k ks ih =>
    simp only [List.nodup_cons] at hks
    have hperm := List.filter_append_perm (fun p => p.1 = k) l
    have hih : ((ks.map (fun k2 => (l.filter (fun x => !(decide (x.1 = k)))).filter
        (fun p => p.1 = k2))).flatten).Perm (l.filter (fun x => !(decide (x.1 = k)))) := by
      apply ih _ hks.2
      intro p hp
      have hp2 := List.mem_filter.mp hp
      rcases List.mem_cons.mp (hall p hp2.1) with h | h
      · exact absurd (by simpa using h) (by simpa using hp2.2)
      · exact h
    have hmapeq : ks.map (fun k2 => (l.filter (fun x => !(decide (x.1 = k)))).filter
        (fun p => p.1 = k2)) = ks.map (fun k2 => l.filter (fun p => p.1 = k2)) := by
      apply List.map_congr_left
      intro k2 hk2
      rw [List.filter_filter]
      apply List.filter_congr
      intro p hp
      have hne : ¬(k2 = k) := fun he => hks.1 (he ▸ hk2)
      by_cases hpk2 : p.1 = k2
      · have hpk : ¬(p.1 = k) := fun h2 => hne (by rw [← hpk2, h2])
        simp [hpk2, hpk, hne]
      · simp [hpk2]
    rw [hmapeq] at hih
    simp only [List.map_cons, List.flatten_cons]
    exact ((hih.append_left (l.filter (fun p => p.1 = k))).trans hperm)

/-! Characterizations of the two dedup passes in terms of groupByKey. -/

/-- The keyed pairs the first pass groups: each record with a usable
placeId, paired with it. -/
def pass1Keyed (l : List TimelineObject) : List (String × TimelineObject) :=
  l.filterMap (fun o => (usableKey o).map (fun k => (k, o)))

theorem pass1_general (l : List TimelineObject) :
    ∀ (m : List (String × List TimelineObject)) (r : List TimelineObject),
      l.foldl pass1Step (m, r) =
        ((pass1Keyed l).foldl (fun m2 p => pushGroup m2 p.1 p.2) m,
         r ++ l.filter (fun o => usableKey o = none)) := by
  induction l with
  | nil =>
    intro m r
    simp [pass1Keyed]
  | cons o l ih =>
    intro m r
    rw [List.foldl_cons]
    cases hk : usableKey o with
    | some k =>
      have hstep : pass1Step (m, r) o = (pushGroup m k o, r) := by
        rw [pass1Step, hk]
      rw [hstep, ih]
      have hkeyed : pass1Keyed (o :: l) = (k, o) :: pass1Keyed l := by
        rw [pass1Keyed, List.filterMap_cons, hk]
        rfl
      rw [hkeyed, List.foldl_cons, List.filter_cons]
      simp [hk]
    | none =>
      have hstep : pass1Step (m, r) o = (m, r ++ [o]) := by
        rw [pass1Step, hk]
      rw [hstep, ih]
      have hkeyed : pass1Keyed (o :: l) = pass1Keyed l := by
        rw [pass1Keyed, List.filterMap_cons, hk]
        rfl
      rw [hkeyed, List.filter_cons]
      simp [hk]

theorem pass1_eq (l : List TimelineObject) :
    pass1 l = (groupByKey (pass1Keyed l), l.filter (fun o => usableKey o = none)) := by
  rw [pass1, pass1_general]
  rfl

theorem pass1Keyed_map_fst (l : List TimelineObject) :
    (pass1Keyed l).map Prod.fst = l.filterMap usableKey := by
  induction l with
  | nil => rfl
  | cons o l ih =>
    rw [pass1Keyed, List.filterMap_cons, List.filterMap_cons]
    cases hk : usableKey o with
    | some k =>
      simp only [Option.map_some']
      rw [List.map_cons]
      rw [show (pass1Keyed l = l.filterMap (fun o => (usableKey o).map (fun k => (k, o)))) from rfl] at ih
      rw [ih]
    | none =>
      simp only [Option.map_none']
      exact ih

theorem pass1Keyed_mem (l : List TimelineObject) (p : String × TimelineObject)
    (h : p ∈ pass1Keyed l) : usableKey p.2 = some p.1 ∧ p.2 ∈ l := by
  rw [pass1Keyed] at h
  rcases List.mem_filterMap.mp h with ⟨o, ho, hmap⟩
  cases hk : usableKey o with
  | some k =>
    rw [hk] at hmap
    simp only [Option.map_some', Option.some.injEq] at hmap
    subst hmap
    exact ⟨hk, ho⟩
  | none =>
    rw [hk] at hmap
    simp at hmap

theorem pass1Keyed_map_snd (l : List TimelineObject) :
    (pass1Keyed l).map Prod.snd = l.filter (fun o => (usableKey o).isSome) := by
  induction l with
  | nil => rfl
  | cons o l ih =>
    rw [pass1Keyed, List.filterMap_cons, List.filter_cons]
    cases hk : usableKey o with
    | some k =>
      simp only [Option.map_some', Option.isSome_some, if_pos]
      rw [List.map_cons]
      rw [show (pass1Keyed l = l.filterMap (fun o => (usableKey o).map (fun k => (k, o)))) from rfl] at ih
      rw [ih]
    | none =>
      simp only [Option.map_none', Option.isSome_none]
      rw [show (pass1Keyed l = l.filterMap (fun o => (usableKey o).map (fun k => (k, o)))) from rfl] at ih
      rw [ih]
      simp

/-- The second pass's keyed pairs: each record annotated with the key the
loop gives it, threading the tag counter. -/
def annotate (rand : Nat → Nat) : List TimelineObject → Nat → List (LatLngKey × TimelineObject)
  | [], _ => []
  | .placeVisit pv :: rest, c =>
    (.coord pv.location.latitudeE7 pv.location.longitudeE7, .placeVisit pv) :: annotate rand rest c
  | .activitySegment seg :: rest, c =>
    (.activityTag (rand c), .activitySegment seg) :: annotate rand rest (c + 1)

theorem annotate_map_snd (rand : Nat → Nat) (l : List TimelineObject) :
    ∀ c : Nat, (annotate rand l c).map Prod.snd = l := by
  induction l with
  | nil => intro c; rfl
  | cons o l ih =>
    intro c
    cases o with
    | placeVisit pv =>
      rw [annotate, List.map_cons, ih c]
    | activitySegment seg =>
      rw [annotate, List.map_cons, ih (c + 1)]

theorem setEntry_of_not_mem {κ α : Type} [DecidableEq κ] (m : List (κ × α)) (k : κ) (v : α)
    (h : k ∉ m.map Prod.fst) : setEntry m k v = m ++ [(k, v)] := by
  induction m with
  | nil => rfl
  | cons e m ih =>
    simp only [List.map_cons, List.mem_cons] at h
    push_neg at h
    rw [setEntry, if_neg (fun he => h.1 he.symm), ih h.2]
    rfl

theorem pushGroup_keys_subset {κ α : Type} [DecidableEq κ] (m : List (κ × List α)) (k : κ)
    (v : α) : (pushGroup m k v).map Prod.fst ⊆ m.map Prod.fst ++ [k] := by
  induction m with
  | nil => simp [pushGroup]
  | cons e m ih =>
    obtain ⟨k0, g⟩ := e
    by_cases hk : k0 = k
    · rw [pushGroup, if_pos hk]
      simp
    · rw [pushGroup, if_neg hk]
      simp only [List.map_cons, List.cons_append]
      exact List.cons_subset_cons k0 ih

theorem pass2Build_eq (rand : Nat → Nat) (hinj : Function.Injective rand)
    (l : List TimelineObject) :
    ∀ (m : List (LatLngKey × List TimelineObject)) (c : Nat),
      (∀ i, c ≤ i → (LatLngKey.activityTag (rand i)) ∉ m.map Prod.fst) →
      pass2Build rand l m c = (annotate rand l c).foldl (fun m2 p => pushGroup m2 p.1 p.2) m := by
  induction l with
  | nil =>
    intro m c hm
    rfl
  | cons o l ih =>
    intro m c hm
    cases o with
    | placeVisit pv =>
      rw [pass2Build, annotate, List.foldl_cons]
      apply ih
      intro i hi hbad
      rcases List.mem_append.mp (pushGroup_keys_subset m _ _ hbad) with hin | hin
      · exact hm i hi hin
      · simp at hin
    | activitySegment seg =>
      rw [pass2Build, annotate, List.foldl_cons]
      rw [setEntry_of_not_mem m _ _ (hm c le_rfl),
        ← pushGroup_of_not_mem m _ (TimelineObject.activitySegment seg) (hm c le_rfl)]
      apply ih
      intro i hi hbad
      rcases List.mem_append.mp (pushGroup_keys_subset m _ _ hbad) with hin | hin
      · exact hm i (by omega) hin
      · simp only [List.mem_singleton, LatLngKey.activityTag.injEq] at hin
        have : i = c := hinj hin
        omega

theorem pass2_eq (rand : Nat → Nat) (hinj : Function.Injective rand)
    (l : List TimelineObject) :
    pass2Build rand l [] 0 = groupByKey (annotate rand l 0) := by
  rw [pass2Build_eq rand hinj l [] 0 (by simp)]
  rfl

theorem annotate_mem (rand : Nat → Nat) (l : List TimelineObject) :
    ∀ (c : Nat) (p : LatLngKey × TimelineObject), p ∈ annotate rand l c →
      (∃ pv, p = (.coord pv.location.latitudeE7 pv.location.longitudeE7, .placeVisit pv)) ∨
      (∃ seg i, c ≤ i ∧ p = (.activityTag (rand i), .activitySegment seg)) := by
  induction l with
  | nil =>
    intro c p hp
    simp [annotate] at hp
  | cons o l ih =>
    intro c p hp
    cases o with
    | placeVisit pv =>
      rw [annotate] at hp
      rcases List.mem_cons.mp hp with hp | hp
      · exact Or.inl ⟨pv, hp⟩
      · exact ih c p hp
    | activitySegment seg =>
      rw [annotate] at hp
      rcases List.mem_cons.mp hp with hp | hp
      · exact Or.inr ⟨seg, c, le_rfl, hp⟩
      · rcases ih (c + 1) p hp with h | ⟨seg2, i, hi, he⟩
        · exact Or.inl h
        · exact Or.inr ⟨seg2, i, by omega, he⟩

theorem annotate_tag_not_mem (rand : Nat → Nat) (l : List TimelineObject) (c : Nat) (t : Nat)
    (h : ∀ i, c ≤ i → rand i ≠ t) :
    LatLngKey.activityTag t ∉ (annotate rand l c).map Prod.fst := by
  intro hmem
  rcases List.mem_map.mp hmem with ⟨p, hp, hfst⟩
  rcases annotate_mem rand l c p hp with ⟨pv, he⟩ | ⟨seg, i, hi, he⟩
  · rw [he] at hfst
    simp at hfst
  · rw [he] at hfst
    simp only [LatLngKey.activityTag.injEq] at hfst
    exact h i hi hfst

theorem annotate_tagFilter_len (rand : Nat → Nat) (hinj : Function.Injective rand)
    (l : List TimelineObject) :
    ∀ (c : Nat) (t : Nat),
      ((annotate rand l c).filter (fun p => p.1 = LatLngKey.activityTag t)).length ≤ 1 := by
  induction l with
  | nil =>
    intro c t
    simp [annotate]
  | cons o l ih =>
    intro c t
    cases o with
    | placeVisit pv =>
      rw [annotate, List.filter_cons]
      simp only [decide_eq_true_eq]
      rw [if_neg (by simp)]
      exact ih c t
    | activitySegment seg =>
      rw [annotate, List.filter_cons]
      by_cases ht : rand c = t
      · simp only [decide_eq_true_eq]
        rw [if_pos (by simp [ht])]
        have hempty : (annotate rand l (c + 1)).filter
            (fun p => p.1 = LatLngKey.activityTag t) = [] := by
          rw [List.filter_eq_nil_iff]
          intro p hp
          simp only [decide_eq_true_eq]
          intro he
          exact annotate_tag_not_mem rand l (c + 1) t
            (fun i hi hri => by
              have : i = c := hinj (by rw [hri, ht])
              omega)
            (List.mem_map.mpr ⟨p, hp, he⟩)
        rw [hempty]
        simp
      · simp only [decide_eq_true_eq]
        rw [if_neg (by simp [ht])]
        exact ih (c + 1) t

/-! Survivor selection lemmas. -/

/-- The survivor rule in closed form: the first address-bearing record in
encounter order, else the first record of the group. -/
theorem pickSurvivor_spec (g : List TimelineObject) (hg : g ≠ []) :
    pickSurvivor g = (g.filter hasAddress ++ g).take 1 := by
  match g with
  | [] => exact absurd rfl hg
  | [x] =>
    cases hx : hasAddress x with
    | true =>
      rw [pickSurvivor]
      simp [List.filter_cons, hx]
    | false =>
      rw [pickSurvivor]
      simp [List.filter_cons, hx]
  | x :: y :: g2 =>
    rw [pickSurvivor]
    cases hfil : (x :: y :: g2).filter hasAddress with
    | nil => simp [hfil]
    | cons w ws => simp [hfil]

theorem pickSurvivor_exists (g : List TimelineObject) (hg : g ≠ []) :
    ∃ w, pickSurvivor g = [w] ∧ w ∈ g := by
  rw [pickSurvivor_spec g hg]
  cases hfil : g.filter hasAddress with
  | nil =>
    cases g with
    | nil => exact absurd rfl hg
    | cons x g2 => exact ⟨x, by simp [hfil], List.mem_cons_self x g2⟩
  | cons w ws =>
    refine ⟨w, by simp [hfil], ?_⟩
    have : w ∈ g.filter hasAddress := by
      rw [hfil]
      exact List.mem_cons_self w ws
    exact (List.mem_filter.mp this).1

theorem pickSurvivor_len (g : List TimelineObject) (hg : g ≠ []) :
    (pickSurvivor g).length = 1 := by
  rcases pickSurvivor_exists g hg with ⟨w, hw, _⟩
  rw [hw]
  rfl

theorem pickSurvivor_count_le (g : List TimelineObject) (o : TimelineObject) :
    ((pickSurvivor g : List TimelineObject) : Multiset TimelineObject).count o ≤
      ((g : List TimelineObject) : Multiset TimelineObject).count o := by
  cases g with
  | nil => simp [pickSurvivor]
  | cons x g2 =>
    rcases pickSurvivor_exists (x :: g2) (by simp) with ⟨w, hw, hmem⟩
    rw [hw]
    by_cases ho : o = w
    · subst ho
      have : 0 < ((x :: g2 : List TimelineObject) : Multiset TimelineObject).count o := by
        rw [Multiset.count_pos]
        simpa using hmem
      simpa using this
    · simp [Multiset.count_singleton, ho]

/-- What a pass pushes over its whole map: one survivor per group, in map
order. -/
def survivors {κ : Type} (m : List (κ × List TimelineObject)) : List TimelineObject :=
  (m.map (fun e => pickSurvivor e.2)).flatten

theorem dedupPass_eq (rand : Nat → Nat) (l : List TimelineObject) :
    dedupPass rand l =
      survivors (pass2Build rand (survivors (pass1 l).1 ++ (pass1 l).2) [] 0) := rfl

theorem survivors_length {κ : Type} (m : List (κ × List TimelineObject))
    (h : ∀ e ∈ m, e.2 ≠ []) : (survivors m).length = m.length := by
  induction m with
  | nil => rfl
  | cons e m ih =>
    rw [survivors, List.map_cons, List.flatten_cons]
    rw [List.length_append]
    rw [show ((m.map (fun e => pickSurvivor e.2)).flatten) = survivors m from rfl]
    rw [ih (fun e2 he2 => h e2 (List.mem_cons_of_mem e he2))]
    rw [pickSurvivor_len e.2 (h e (List.mem_cons_self e m))]
    rw [List.length_cons]
    omega

theorem groupByKey_mem {κ α : Type} [DecidableEq κ] (l : List (κ × α)) (e : κ × List α)
    (h : e ∈ groupByKey l) :
    e.1 ∈ firstOccs (l.map Prod.fst) ∧ e.2 = (l.filter (fun p => p.1 = e.1)).map Prod.snd := by
  rw [groupByKey_eq] at h
  rcases List.mem_map.mp h with ⟨k, hk, he⟩
  rw [← he]
  exact ⟨hk, rfl⟩

theorem groupByKey_groups_ne_nil {κ α : Type} [DecidableEq κ] (l : List (κ × α))
    (e : κ × List α) (h : e ∈ groupByKey l) : e.2 ≠ [] := by
  rcases groupByKey_mem l e h with ⟨hk, hg⟩
  rw [hg]
  intro hnil
  rcases List.mem_map.mp ((mem_firstOccs _ _).mp hk) with ⟨p, hp, hfst⟩
  have : p ∈ l.filter (fun p => p.1 = e.1) := List.mem_filter.mpr ⟨hp, by simp [hfst]⟩
  rw [List.map_eq_nil_iff] at hnil
  rw [hnil] at this
  simp at this

theorem pass1_group_eq (l : List TimelineObject) (k : String) :
    ((pass1Keyed l).filter (fun p => p.1 = k)).map Prod.snd =
      l.filter (fun o => usableKey o = some k) := by
  induction l with
  | nil => rfl
  | cons o l ih =>
    rw [pass1Keyed, List.filterMap_cons, List.filter_cons]
    cases hk : usableKey o with
    | some k0 =>
      simp only [Option.map_some']
      rw [List.filter_cons]
      by_cases hkk : k0 = k
      · subst hkk
        rw [if_pos (by simp), if_pos (by simp [hk])]
        rw [List.map_cons]
        rw [show ((l.filterMap (fun o => (usableKey o).map (fun k => (k, o)))) = pass1Keyed l) from rfl]
        rw [ih]
      · rw [if_neg (by simp [hkk]), if_neg (by simp [hk, hkk])]
        rw [show ((l.filterMap (fun o => (usableKey o).map (fun k => (k, o)))) = pass1Keyed l) from rfl]
        exact ih
    | none =>
      simp only [Option.map_none']
      rw [if_neg (by simp [hk])]
      rw [show ((l.filterMap (fun o => (usableKey o).map (fun k => (k, o)))) = pass1Keyed l) from rfl]
      exact ih

/-- Claim C1: within each dedup pass, every group keeps exactly one
survivor — the first record in encounter order whose address is present
and non-blank, else the first record encountered; identifier groups are
the ordered filters of the input by trimmed placeId, coordinate groups
hold PlaceVisits of exactly that scaled pair; and for two records sharing
a placeId where exactly one bears an address, the address-bearing record
is the sole dedup output regardless of encounter order. -/
theorem c1_dedup_survivor :
    (∀ (l : List TimelineObject) (e : String × List TimelineObject), e ∈ (pass1 l).1 →
      e.2 = l.filter (fun o => usableKey o = some e.1) ∧ e.2 ≠ [] ∧
      ∃ w, pickSurvivor e.2 = [w] ∧ w ∈ e.2 ∧
        pickSurvivor e.2 = (e.2.filter hasAddress ++ e.2).take 1) ∧
    (∀ (rand : Nat → Nat), Function.Injective rand →
      ∀ (A : List TimelineObject) (e : LatLngKey × List TimelineObject),
        e ∈ pass2Build rand A [] 0 →
        e.2 ≠ [] ∧
        (∀ a b, e.1 = .coord a b → ∀ o ∈ e.2, ∃ pv, o = .placeVisit pv ∧
          pv.location.latitudeE7 = a ∧ pv.location.longitudeE7 = b) ∧
        ∃ w, pickSurvivor e.2 = [w] ∧ w ∈ e.2 ∧
          pickSurvivor e.2 = (e.2.filter hasAddress ++ e.2).take 1) ∧
    (∀ (rand : Nat → Nat) (r1 r2 : TimelineObject) (k : String),
      usableKey r1 = some k → usableKey r2 = some k →
      hasAddress r1 = false → hasAddress r2 = true →
      dedupPass rand [r1, r2] = [r2] ∧ dedupPass rand [r2, r1] = [r2]) := by
  refine ⟨?_, ?_, ?_⟩
  · intro l e he
    rw [pass1_eq] at he
    rcases groupByKey_mem _ e he with ⟨hk, hg⟩
    have hgroup : e.2 = l.filter (fun o => usableKey o = some e.1) := by
      rw [hg, pass1_group_eq]
    have hne : e.2 ≠ [] := groupByKey_groups_ne_nil _ e he
    rcases pickSurvivor_exists e.2 hne with ⟨w, hw, hmem⟩
    exact ⟨hgroup, hne, w, hw, hmem, by rw [hw, ← pickSurvivor_spec e.2 hne, hw]⟩
  · intro rand hinj A e he
    rw [pass2_eq rand hinj] at he
    have hne : e.2 ≠ [] := groupByKey_groups_ne_nil _ e he
    rcases groupByKey_mem _ e he with ⟨hk, hg⟩
    refine ⟨hne, ?_, ?_⟩
    · intro a b hcoord o ho
      rw [hg] at ho
      rcases List.mem_map.mp ho with ⟨p, hp, hsnd⟩
      have hfst : p.1 = e.1 := by
        have := (List.mem_filter.mp hp).2
        simpa using this
      rcases annotate_mem rand A 0 p (List.mem_filter.mp hp).1 with ⟨pv, hpe⟩ | ⟨seg, i, _, hpe⟩
      · refine ⟨pv, ?_, ?_, ?_⟩
        · rw [← hsnd, hpe]
        · rw [hpe] at hfst
          rw [hcoord] at hfst
          simp only [LatLngKey.coord.injEq] at hfst
          exact hfst.1
        · rw [hpe] at hfst
          rw [hcoord] at hfst
          simp only [LatLngKey.coord.injEq] at hfst
          exact hfst.2
      · rw [hpe] at hfst
        rw [hcoord] at hfst
        simp at hfst
    · rcases pickSurvivor_exists e.2 hne with ⟨w, hw, hmem⟩
      exact ⟨w, hw, hmem, by rw [hw, ← pickSurvivor_spec e.2 hne, hw]⟩
  · intro rand r1 r2 k hk1 hk2 ha1 ha2
    obtain ⟨pv1, rfl⟩ : ∃ pv, r1 = .placeVisit pv := by
      cases r1 with
      | placeVisit pv => exact ⟨pv, rfl⟩
      | activitySegment seg => simp [usableKey] at hk1
    obtain ⟨pv2, rfl⟩ : ∃ pv, r2 = .placeVisit pv := by
      cases r2 with
      | placeVisit pv => exact ⟨pv, rfl⟩
      | activitySegment seg => simp [usableKey] at hk2
    constructor
    · rw [dedupPass]
      have hp1 : pass1 [TimelineObject.placeVisit pv1, TimelineObject.placeVisit pv2] =
          ([(k, [TimelineObject.placeVisit pv1, TimelineObject.placeVisit pv2])], []) := by
        rw [pass1]
        rw [List.foldl_cons, List.foldl_cons, List.foldl_nil]
        rw [show pass1Step ([], []) (TimelineObject.placeVisit pv1) =
          ([(k, [TimelineObject.placeVisit pv1])], []) from by rw [pass1Step, hk1]; rfl]
        rw [show pass1Step ([(k, [TimelineObject.placeVisit pv1])], [])
            (TimelineObject.placeVisit pv2) =
          ([(k, [TimelineObject.placeVisit pv1, TimelineObject.placeVisit pv2])], []) from by
            rw [pass1Step, hk2]
            simp [pushGroup]]
      rw [hp1]
      have hps : pickSurvivor [TimelineObject.placeVisit pv1, TimelineObject.placeVisit pv2] =
          [TimelineObject.placeVisit pv2] := by
        rw [pickSurvivor]
        rw [List.filter_cons, List.filter_cons, List.filter_nil]
        rw [if_neg (by simp [ha1]), if_pos (by simp [ha2])]
      simp only [survivors, List.map_cons, List.map_nil, List.flatten]
      rw [hps]
      rw [show ([TimelineObject.placeVisit pv2] ++ [] ++ ([] : List TimelineObject)) =
        [TimelineObject.placeVisit pv2] from by simp]
      rw [pass2Build, pass2Build]
      simp [survivors, pushGroup, pickSurvivor]
    · rw [dedupPass]
      have hp1 : pass1 [TimelineObject.placeVisit pv2, TimelineObject.placeVisit pv1] =
          ([(k, [TimelineObject.placeVisit pv2, TimelineObject.placeVisit pv1])], []) := by
        rw [pass1]
        rw [List.foldl_cons, List.foldl_cons, List.foldl_nil]
        rw [show pass1Step ([], []) (TimelineObject.placeVisit pv2) =
          ([(k, [TimelineObject.placeVisit pv2])], []) from by rw [pass1Step, hk2]; rfl]
        rw [show pass1Step ([(k, [TimelineObject.placeVisit pv2])], [])
            (TimelineObject.placeVisit pv1) =
          ([(k, [TimelineObject.placeVisit pv2, TimelineObject.placeVisit pv1])], []) from by
            rw [pass1Step, hk1]
            simp [pushGroup]]
      rw [hp1]
      have hps : pickSurvivor [TimelineObject.placeVisit pv2, TimelineObject.placeVisit pv1] =
          [TimelineObject.placeVisit pv2] := by
        rw [pickSurvivor]
        rw [List.filter_cons, List.filter_cons, List.filter_nil]
        rw [if_pos (by simp [ha2])]
      simp only [survivors, List.map_cons, List.map_nil, List.flatten]
      rw [hps]
      rw [show ([TimelineObject.placeVisit pv2] ++ [] ++ ([] : List TimelineObject)) =
        [TimelineObject.placeVisit pv2] from by simp]
      rw [pass2Build, pass2Build]
      simp [survivors, pushGroup, pickSurvivor]

/-- A concrete PlaceVisit sharing placeId P1 with visitC2 but carrying no
address, used by witnesses. -/
def visitP1NoAddr : TimelineObject := .placeVisit {
  location := {
    latitudeE7 := some 100
    longitudeE7 := some 200
    placeId := some "P1"
    name := some "Elsewhere"
    address := some ""
    semanticType := some "TYPE_UNKNOWN" }
  duration := { startTimestamp := some "u0", endTimestamp := some "u1" }
  centerLatE7 := some 100
  centerLngE7 := some 200
  visitConfidence := some 50 }

/-- Witness for C1 at concrete inputs: the address-bearing record of the
placeId-P1 pair survives in both encounter orders. -/
theorem c1_dedup_survivor_witness :
    dedupPass (fun n => n) [visitP1NoAddr, visitC2] = [visitC2] ∧
    dedupPass (fun n => n) [visitC2, visitP1NoAddr] = [visitC2] :=
  c1_dedup_survivor.2.2 (fun n => n) visitP1NoAddr visitC2 "P1"
    (by decide) (by decide) (by decide) (by decide)

/-- A concrete activity segment used by witnesses. -/
def sampleSeg : ActivitySegment := {
  startLocation := (some 0, some 0)
  endLocation := (some 10, some 10)
  duration := { startTimestamp := some "s", endTimestamp := some "e" }
  distance := some 0
  activities := [] }

/-- First counterexample record for claim C10: a placeId-P1 visit without
address at coordinates (1,2). -/
def visitOrdA : TimelineObject := .placeVisit {
  location := {
    latitudeE7 := some 1
    longitudeE7 := some 2
    placeId := some "P1"
    name := some "A"
    address := some ""
    semanticType := some "T" }
  duration := { startTimestamp := some "a0", endTimestamp := some "a1" }
  centerLatE7 := some 1
  centerLngE7 := some 2
  visitConfidence := some 1 }

/-- Second counterexample record for claim C10: an address-bearing visit
without placeId at the same coordinates (1,2). -/
def visitOrdB : TimelineObject := .placeVisit {
  location := {
    latitudeE7 := some 1
    longitudeE7 := some 2
    placeId := none
    name := some "B"
    address := some "Addr"
    semanticType := some "T" }
  duration := { startTimestamp := some "b0", endTimestamp := some "b1" }
  centerLatE7 := some 1
  centerLngE7 := some 2
  visitConfidence := some 2 }

/-- Third counterexample record for claim C10: a placeId-P2 visit with
address at coordinates (3,4). -/
def visitOrdC : TimelineObject := .placeVisit {
  location := {
    latitudeE7 := some 3
    longitudeE7 := some 4
    placeId := some "P2"
    name := some "C"
    address := some "Other"
    semanticType := some "T" }
  duration := { startTimestamp := some "c0", endTimestamp := some "c1" }
  centerLatE7 := some 3
  centerLngE7 := some 4
  visitConfidence := some 3 }

/-- Claim C10 counterexample: the claimed engine output order — placeId
survivors first, then every record without a usable placeId in original
relative order — fails end to end. The coordinate pass merges the
no-placeId record into the P1 survivor's group, where it wins on address
and takes that group's early position: the output starts with a
no-placeId record and the P1 survivor is gone. -/
theorem c10_counterexample :
    dedupPass (fun n => n) [visitOrdA, visitOrdB, visitOrdC] = [visitOrdB, visitOrdC] ∧
    usableKey visitOrdA = some "P1" ∧
    usableKey visitOrdB = none ∧
    usableKey visitOrdC = some "P2" ∧
    visitOrdA ∉ dedupPass (fun n => n) [visitOrdA, visitOrdB, visitOrdC] := by
  refine ⟨by decide, by decide, rfl, by decide, by decide⟩

/-- Claim C10 (amended): with dedup enabled the engine reorders, but only
pass-internally. The first pass emits one survivor per placeId group, in
first-occurrence order of the placeIds, followed by all records without a
usable placeId (among them every non-PlaceVisit record) in their original
relative order; the second pass then emits one survivor per
coordinate/tag group, in first-occurrence order of the keys over that
intermediate list — so a coordinate collision across the two sections
merges records into the earlier group position, and the final output does
not in general keep the no-placeId records after the placeId survivors.
For an ActivitySegment preceding a placeId-bearing PlaceVisit on distinct
coordinates, the visit precedes the activity in the output. -/
theorem c10_order :
    (∀ l : List TimelineObject, (pass1 l).2 = l.filter (fun o => usableKey o = none)) ∧
    (∀ l : List TimelineObject, ((pass1 l).1).map Prod.fst = firstOccs (l.filterMap usableKey)) ∧
    (∀ (rand : Nat → Nat), Function.Injective rand → ∀ l : List TimelineObject,
      (pass2Build rand l [] 0).map Prod.fst = firstOccs ((annotate rand l 0).map Prod.fst) ∧
      dedupPass rand l =
        survivors (pass2Build rand (survivors (pass1 l).1 ++ (pass1 l).2) [] 0)) ∧
    (∀ seg : ActivitySegment, usableKey (.activitySegment seg) = none) ∧
    (∀ (rand : Nat → Nat) (seg : ActivitySegment) (pv : PlaceVisit) (k : String),
      usableKey (.placeVisit pv) = some k →
      dedupPass rand [.activitySegment seg, .placeVisit pv] =
        [.placeVisit pv, .activitySegment seg]) := by
  refine ⟨?_, ?_, ?_, fun seg => rfl, ?_⟩
  · intro l
    rw [pass1_eq]
  · intro l
    rw [pass1_eq]
    have h1 : (groupByKey (pass1Keyed l)).map Prod.fst = firstOccs ((pass1Keyed l).map Prod.fst) := by
      rw [groupByKey_eq, List.map_map]
      exact List.map_id _
    rw [h1, pass1Keyed_map_fst]
  · intro rand hinj l
    refine ⟨?_, rfl⟩
    rw [pass2_eq rand hinj]
    rw [groupByKey_eq, List.map_map]
    exact List.map_id _
  · intro rand seg pv k hk
    rw [dedupPass]
    have hp1 : pass1 [TimelineObject.activitySegment seg, TimelineObject.placeVisit pv] =
        ([(k, [TimelineObject.placeVisit pv])], [TimelineObject.activitySegment seg]) := by
      rw [pass1, List.foldl_cons, List.foldl_cons, List.foldl_nil]
      rw [show pass1Step ([], []) (TimelineObject.activitySegment seg) =
        ([], [TimelineObject.activitySegment seg]) from by rw [pass1Step]; rfl]
      rw [show pass1Step ([], [TimelineObject.activitySegment seg])
          (TimelineObject.placeVisit pv) =
        ([(k, [TimelineObject.placeVisit pv])], [TimelineObject.activitySegment seg]) from by
          rw [pass1Step, hk]; rfl]
    rw [hp1]
    simp [survivors, pass2Build, pushGroup, setEntry, pickSurvivor]

/-- Witness for the amended C10 at concrete inputs: the activity segment
that came first in the input follows the placeId-bearing visit in the
output. -/
theorem c10_order_witness :
    dedupPass (fun n => n) [.activitySegment sampleSeg, visitC2] =
      [visitC2, .activitySegment sampleSeg] :=
  c10_order.2.2.2.2 (fun n => n) sampleSeg pvC2 "P1" (by decide)

/-! Multiset counting lemmas for the dedup passes. -/

theorem pickSurvivor_subset (g : List TimelineObject) :
    ∀ o ∈ pickSurvivor g, o ∈ g := by
  intro o ho
  cases g with
  | nil => simp [pickSurvivor] at ho
  | cons x g2 =>
    rcases pickSurvivor_exists (x :: g2) (by simp) with ⟨w, hw, hmem⟩
    rw [hw] at ho
    rcases List.mem_singleton.mp ho with rfl
    exact hmem

theorem mem_survivors {κ : Type} (m : List (κ × List TimelineObject)) (o : TimelineObject) :
    o ∈ survivors m ↔ ∃ e ∈ m, o ∈ pickSurvivor e.2 := by
  rw [survivors]
  constructor
  · intro h
    rcases List.mem_flatten.mp h with ⟨g, hg, ho⟩
    rcases List.mem_map.mp hg with ⟨e, he, hge⟩
    exact ⟨e, he, by rw [hge]; exact ho⟩
  · intro ⟨e, he, ho⟩
    exact List.mem_flatten.mpr ⟨pickSurvivor e.2, List.mem_map.mpr ⟨e, he, rfl⟩, ho⟩

theorem groupByKey_flatten_perm {κ α : Type} [DecidableEq κ] (l : List (κ × α)) :
    ((groupByKey l).map (fun e => e.2)).flatten.Perm (l.map Prod.snd) := by
  rw [groupByKey_eq, List.map_map]
  have hclean : ((firstOccs (l.map Prod.fst)).map
      ((fun (e : κ × List α) => e.2) ∘ (fun k => (k, (l.filter (fun p => p.1 = k)).map Prod.snd)))) =
      ((firstOccs (l.map Prod.fst)).map (List.map Prod.snd ∘ (fun k => l.filter (fun p => p.1 = k)))) := rfl
  rw [hclean, ← List.map_map, ← List.map_flatten]
  exact (partition_perm (firstOccs (l.map Prod.fst)) l (firstOccs_nodup _)
    (fun p hp => (mem_firstOccs _ _).mpr (List.mem_map.mpr ⟨p, hp, rfl⟩))).map Prod.snd

theorem survivors_count_eq {κ : Type} (m : List (κ × List TimelineObject)) (o : TimelineObject)
    (h : ∀ e ∈ m, Multiset.count o (↑(pickSurvivor e.2) : Multiset TimelineObject) =
      Multiset.count o (↑e.2 : Multiset TimelineObject)) :
    Multiset.count o (↑(survivors m) : Multiset TimelineObject) =
      Multiset.count o (↑((m.map (fun e => e.2)).flatten) : Multiset TimelineObject) := by
  induction m with
  | nil => rfl
  | cons e m ih =>
    rw [survivors, List.map_cons, List.flatten_cons, List.map_cons, List.flatten_cons]
    rw [← Multiset.coe_add, ← Multiset.coe_add, Multiset.count_add, Multiset.count_add]
    rw [h e (List.mem_cons_self e m)]
    rw [show ((m.map (fun e => pickSurvivor e.2)).flatten) = survivors m from rfl]
    rw [ih (fun e2 he2 => h e2 (List.mem_cons_of_mem e he2))]

/-- Counting a non-PlaceVisit record through the coordinate pass: every
group keeps it exactly as often as it occurs, because coordinate groups
hold only PlaceVisits and every tag group is a singleton. -/
theorem pass2_count_nonvisit (rand : Nat → Nat) (hinj : Function.Injective rand)
    (A : List TimelineObject) (o : TimelineObject) (ho : isPlaceVisit o = false) :
    Multiset.count o (↑(survivors (pass2Build rand A [] 0)) : Multiset TimelineObject) =
      Multiset.count o (↑A : Multiset TimelineObject) := by
  rw [pass2_eq rand hinj]
  rw [survivors_count_eq _ o ?hper]
  case hper =>
    intro e he
    rcases groupByKey_mem _ e he with ⟨hk, hg⟩
    have hne : e.2 ≠ [] := groupByKey_groups_ne_nil _ e he
    cases hkey : e.1 with
    | coord a b =>
      have hnomem : o ∉ e.2 := by
        intro hoin
        rw [hg] at hoin
        rcases List.mem_map.mp hoin with ⟨p, hp, hsnd⟩
        have hfst : p.1 = e.1 := by simpa using (List.mem_filter.mp hp).2
        rcases annotate_mem rand A 0 p (List.mem_filter.mp hp).1 with ⟨pv, hpe⟩ | ⟨seg, i, _, hpe⟩
        · rw [hpe] at hsnd
          rw [← hsnd] at ho
          simp [isPlaceVisit] at ho
        · rw [hpe] at hfst
          rw [hkey] at hfst
          simp at hfst
      have h1 : Multiset.count o (↑e.2 : Multiset TimelineObject) = 0 := by
        rw [Multiset.count_eq_zero]
        simpa using hnomem
      have h2 : Multiset.count o (↑(pickSurvivor e.2) : Multiset TimelineObject) = 0 := by
        rw [Multiset.count_eq_zero]
        intro hoin
        exact hnomem (pickSurvivor_subset e.2 o (by simpa using hoin))
      rw [h1, h2]
    | activityTag t =>
      have hlen : e.2.length ≤ 1 := by
        rw [hg, List.length_map]
        have := annotate_tagFilter_len rand hinj A 0 t
        rw [hkey] at hg ⊢
        simpa using this
      match e2 : e.2, hne2 : hne with
      | [x], _ => simp [pickSurvivor]
      | x :: y :: g2, _ =>
        rw [e2] at hlen
        simp at hlen
  · have hflat := groupByKey_flatten_perm (annotate rand A 0)
    rw [annotate_map_snd] at hflat
    rw [Multiset.coe_eq_coe.mpr hflat]

theorem pass1_count_nonvisit (l : List TimelineObject) (o : TimelineObject)
    (ho : usableKey o = none) :
    Multiset.count o (↑(survivors (pass1 l).1 ++ (pass1 l).2) : Multiset TimelineObject) =
      Multiset.count o (↑l : Multiset TimelineObject) := by
  rw [pass1_eq]
  rw [← Multiset.coe_add, Multiset.count_add]
  have h1 : Multiset.count o (↑(survivors (groupByKey (pass1Keyed l))) : Multiset TimelineObject) = 0 := by
    rw [Multiset.count_eq_zero]
    intro hmem
    rcases (mem_survivors _ o).mp (by simpa using hmem) with ⟨e, he, hpick⟩
    have hoin : o ∈ e.2 := pickSurvivor_subset e.2 o hpick
    rcases groupByKey_mem _ e he with ⟨_, hg⟩
    rw [hg] at hoin
    rcases List.mem_map.mp hoin with ⟨p, hp, hsnd⟩
    have := (pass1Keyed_mem l p (List.mem_filter.mp hp).1).1
    rw [hsnd] at this
    rw [ho] at this
    simp at this
  rw [h1]
  have h2 : Multiset.count o
      (↑(l.filter (fun o => usableKey o = none)) : Multiset TimelineObject) =
      Multiset.count o (↑l : Multiset TimelineObject) := by
    clear h1
    induction l with
    | nil => rfl
    | cons x l ih =>
      rw [List.filter_cons]
      by_cases hx : usableKey x = none
      · rw [if_pos (by simp [hx])]
        rw [show ((x :: l.filter (fun o => usableKey o = none) : List TimelineObject) :
          Multiset TimelineObject) = x ::ₘ ↑(l.filter (fun o => usableKey o = none)) from rfl]
        rw [show ((x :: l : List TimelineObject) : Multiset TimelineObject) = x ::ₘ ↑l from rfl]
        rw [Multiset.count_cons, Multiset.count_cons, ih]
      · rw [if_neg (by simp [hx])]
        rw [show ((x :: l : List TimelineObject) : Multiset TimelineObject) = x ::ₘ ↑l from rfl]
        rw [Multiset.count_cons, ih]
        have hne2 : ¬(o = x) := fun he => hx (he ▸ ho)
        simp [hne2]
  rw [h2]
  omega

/-- Claim C5: deduplication never merges or removes a non-PlaceVisit
record — each such record occurs in the dedup output exactly as often as
in its input (so a record occurring once appears exactly once), given that
the random tags drawn for non-PlaceVisit records are pairwise distinct;
likewise through cleanData with activity removal off and dedup on. -/
theorem c5_nonvisit_preserved :
    ∀ (rand : Nat → Nat), Function.Injective rand →
    ∀ (l : List TimelineObject) (o : TimelineObject), isPlaceVisit o = false →
      Multiset.count o (↑(dedupPass rand l) : Multiset TimelineObject) =
        Multiset.count o (↑l : Multiset TimelineObject) ∧
      Multiset.count o (↑((cleanData false true rand l).cleaned) : Multiset TimelineObject) =
        Multiset.count o (↑l : Multiset TimelineObject) := by
  intro rand hinj l o ho
  have hkey : usableKey o = none := by
    cases o with
    | placeVisit pv => simp [isPlaceVisit] at ho
    | activitySegment seg => rfl
  have h1 : Multiset.count o (↑(dedupPass rand l) : Multiset TimelineObject) =
      Multiset.count o (↑l : Multiset TimelineObject) := by
    rw [dedupPass_eq]
    rw [pass2_count_nonvisit rand hinj _ o ho]
    exact pass1_count_nonvisit l o hkey
  refine ⟨h1, ?_⟩
  have hcd : (cleanData false true rand l).cleaned = dedupPass rand l := rfl
  rw [hcd, h1]

/-- Witness for C5 at a concrete input. -/
theorem c5_nonvisit_preserved_witness :
    Multiset.count (TimelineObject.activitySegment sampleSeg)
        (↑(dedupPass (fun n => n) [.activitySegment sampleSeg, visitC2]) :
          Multiset TimelineObject) =
      Multiset.count (TimelineObject.activitySegment sampleSeg)
        (↑([.activitySegment sampleSeg, visitC2] : List TimelineObject) :
          Multiset TimelineObject) :=
  (c5_nonvisit_preserved (fun n => n) (fun _ _ h => h)
    [.activitySegment sampleSeg, visitC2] (.activitySegment sampleSeg) rfl).1

/-! Idempotence of deduplication. -/

/-- The coordinate identity the second pass keys PlaceVisits by: the
scaled latitude/longitude pair for a PlaceVisit, nothing for any other
record. -/
def coordKey : TimelineObject → Option (Option Rat × Option Rat)
  | .placeVisit pv => some (pv.location.latitudeE7, pv.location.longitudeE7)
  | .activitySegment _ => none

/-- The coordinate pair carried by a coordinate key, nothing for a tag
key. -/
def keyCoord : LatLngKey → Option (Option Rat × Option Rat)
  | .coord a b => some (a, b)
  | .activityTag _ => none

theorem keyCoord_inj (k k2 : LatLngKey) (q : Option Rat × Option Rat)
    (h1 : q ∈ keyCoord k) (h2 : q ∈ keyCoord k2) : k = k2 := by
  cases k with
  | activityTag t => simp [keyCoord] at h1
  | coord a b =>
    cases k2 with
    | activityTag t => simp [keyCoord] at h2
    | coord a2 b2 =>
      simp only [keyCoord, Option.mem_def, Option.some.injEq] at h1 h2
      rw [← h1] at h2
      simp only [Prod.mk.injEq] at h2
      rw [h2.1, h2.2]

theorem nodup_keys_filter_len {κ α : Type} [DecidableEq κ] (l : List (κ × α))
    (h : (l.map Prod.fst).Nodup) (k : κ) :
    (l.filter (fun p => p.1 = k)).length ≤ 1 := by
  induction l with
  | nil => simp
  | cons p l ih =>
    rw [List.map_cons, List.nodup_cons] at h
    rw [List.filter_cons]
    by_cases hp : p.1 = k
    · rw [if_pos (by simp [hp])]
      have hnil : l.filter (fun q => q.1 = k) = [] := by
        rw [List.filter_eq_nil_iff]
        intro q hq
        simp only [decide_eq_true_eq]
        intro hqk
        exact h.1 (List.mem_map.mpr ⟨q, hq, by rw [hqk, hp]⟩)
      rw [hnil]
      simp
    · rw [if_neg (by simp [hp])]
      exact ih h.2

theorem nodup_filter_eq_len {α : Type} [DecidableEq α] (l : List α) (h : l.Nodup) (x : α) :
    (l.filter (fun y => y = x)).length ≤ 1 := by
  induction l with
  | nil => simp
  | cons a l ih =>
    rw [List.nodup_cons] at h
    rw [List.filter_cons]
    by_cases ha : a = x
    · rw [if_pos (by simp [ha])]
      have hnil : l.filter (fun y => y = x) = [] := by
        rw [List.filter_eq_nil_iff]
        intro y hy
        simp only [decide_eq_true_eq]
        intro hyx
        exact h.1 (by rw [ha, ← hyx]; exact hy)
      rw [hnil]
      simp
    · rw [if_neg (by simp [ha])]
      exact ih h.2

theorem groupByKey_singleton {κ α : Type} [DecidableEq κ] (l : List (κ × α))
    (h : (l.map Prod.fst).Nodup) (e : κ × List α) (he : e ∈ groupByKey l) :
    ∃ x, e.2 = [x] := by
  rcases groupByKey_mem l e he with ⟨_, hg⟩
  have hlen : e.2.length ≤ 1 := by
    rw [hg, List.length_map]
    exact nodup_keys_filter_len l h e.1
  have hne := groupByKey_groups_ne_nil l e he
  cases e2 : e.2 with
  | nil => exact absurd e2 hne
  | cons x g =>
    cases g with
    | nil => exact ⟨x, rfl⟩
    | cons y g2 =>
      rw [e2] at hlen
      simp at hlen

theorem survivors_of_singletons {κ : Type} (m : List (κ × List TimelineObject))
    (h : ∀ e ∈ m, ∃ x, e.2 = [x]) :
    survivors m = (m.map (fun e => e.2)).flatten := by
  induction m with
  | nil => rfl
  | cons e m ih =>
    rw [survivors, List.map_cons, List.flatten_cons, List.map_cons, List.flatten_cons]
    rw [show ((m.map (fun e => pickSurvivor e.2)).flatten) = survivors m from rfl]
    rw [ih (fun e2 he2 => h e2 (List.mem_cons_of_mem e he2))]
    rcases h e (List.mem_cons_self e m) with ⟨x, hx⟩
    rw [hx]
    simp [pickSurvivor]

/-- When no two records share a usable placeId, the first pass only
reorders: its output is a permutation of its input. -/
theorem pass1_perm_of_nodup (l : List TimelineObject)
    (h : (l.filterMap usableKey).Nodup) :
    (survivors (pass1 l).1 ++ (pass1 l).2).Perm l := by
  rw [pass1_eq]
  have hkeys : ((pass1Keyed l).map Prod.fst).Nodup := by
    rw [pass1Keyed_map_fst]
    exact h
  rw [survivors_of_singletons _ (fun e he => groupByKey_singleton _ hkeys e he)]
  have hflat := groupByKey_flatten_perm (pass1Keyed l)
  rw [pass1Keyed_map_snd] at hflat
  have hfil : l.filter (fun o => usableKey o = none) =
      l.filter (fun o => !((usableKey o).isSome)) := by
    apply List.filter_congr
    intro o _
    cases usableKey o <;> simp
  rw [hfil]
  exact (hflat.append (List.Perm.refl _)).trans
    (List.filter_append_perm (fun o => (usableKey o).isSome) l)

theorem annotate_coord_filter (rand : Nat → Nat) (l : List TimelineObject)
    (a b : Option Rat) : ∀ c : Nat,
    ((annotate rand l c).filter (fun p => p.1 = LatLngKey.coord a b)).length =
      ((l.filterMap coordKey).filter (fun q => q = (a, b))).length := by
  induction l with
  | nil =>
    intro c
    rfl
  | cons o l ih =>
    intro c
    cases o with
    | placeVisit pv =>
      rw [annotate, List.filterMap_cons]
      rw [show coordKey (.placeVisit pv) =
        some (pv.location.latitudeE7, pv.location.longitudeE7) from rfl]
      rw [List.filter_cons, List.filter_cons]
      by_cases hab : pv.location.latitudeE7 = a ∧ pv.location.longitudeE7 = b
      · rw [if_pos (by simp [hab.1, hab.2]), if_pos (by simp [hab.1, hab.2])]
        simp only [List.length_cons]
        rw [ih c]
      · rw [if_neg (by simp only [decide_eq_true_eq, LatLngKey.coord.injEq]; exact hab),
            if_neg (by simp only [decide_eq_true_eq, Prod.mk.injEq]; exact hab)]
        exact ih c
    | activitySegment seg =>
      rw [annotate, List.filter_cons, List.filterMap_cons]
      rw [show coordKey (.activitySegment seg) = none from rfl]
      rw [if_neg (by simp)]
      exact ih (c + 1)

/-- When no two PlaceVisits share a scaled-coordinate pair, the second
pass only reorders: its output is a permutation of its input. -/
theorem pass2_perm_of_nodup (rand : Nat → Nat) (hinj : Function.Injective rand)
    (A : List TimelineObject) (h : (A.filterMap coordKey).Nodup) :
    (survivors (pass2Build rand A [] 0)).Perm A := by
  rw [pass2_eq rand hinj]
  have hsing : ∀ e ∈ groupByKey (annotate rand A 0), ∃ x, e.2 = [x] := by
    intro e he
    rcases groupByKey_mem _ e he with ⟨_, hg⟩
    have hne := groupByKey_groups_ne_nil _ e he
    have hlen : e.2.length ≤ 1 := by
      rw [hg, List.length_map]
      cases hkey : e.1 with
      | coord a b =>
        rw [annotate_coord_filter rand A a b 0]
        exact nodup_filter_eq_len _ h (a, b)
      | activityTag t =>
        have := annotate_tagFilter_len rand hinj A 0 t
        simpa using this
    cases e2 : e.2 with
    | nil => exact absurd e2 hne
    | cons x g =>
      cases g with
      | nil => exact ⟨x, rfl⟩
      | cons y g2 =>
        rw [e2] at hlen
        simp at hlen
  rw [survivors_of_singletons _ hsing]
  have hflat := groupByKey_flatten_perm (annotate rand A 0)
  rw [annotate_map_snd] at hflat
  exact hflat

theorem survivors_filterMap_keys {κ β : Type} (m : List (κ × List TimelineObject))
    (f : TimelineObject → Option β) (g : κ → Option β)
    (h : ∀ e ∈ m, (pickSurvivor e.2).filterMap f = (g e.1).toList) :
    (survivors m).filterMap f = (m.map Prod.fst).filterMap g := by
  induction m with
  | nil => rfl
  | cons e m ih =>
    rw [survivors, List.map_cons, List.flatten_cons]
    rw [List.filterMap_append]
    rw [h e (List.mem_cons_self e m)]
    rw [show ((m.map (fun e => pickSurvivor e.2)).flatten) = survivors m from rfl]
    rw [ih (fun e2 he2 => h e2 (List.mem_cons_of_mem e he2))]
    rw [List.map_cons, List.filterMap_cons]
    cases g e.1 with
    | none => rfl
    | some b2 => rfl

theorem groupByKey_keys_nodup {κ α : Type} [DecidableEq κ] (l : List (κ × α)) :
    ((groupByKey l).map Prod.fst).Nodup := by
  rw [groupByKey_eq, List.map_map]
  rw [show (Prod.fst ∘ fun k => ((k : κ), (l.filter (fun p => p.1 = k)).map Prod.snd)) =
    fun k => k from rfl]
  simpa using firstOccs_nodup (l.map Prod.fst)

theorem pass2_entry_coordKey (rand : Nat → Nat) (A : List TimelineObject)
    (e : LatLngKey × List TimelineObject) (he : e ∈ groupByKey (annotate rand A 0)) :
    (pickSurvivor e.2).filterMap coordKey = (keyCoord e.1).toList := by
  rcases groupByKey_mem _ e he with ⟨_, hg⟩
  have hne := groupByKey_groups_ne_nil _ e he
  rcases pickSurvivor_exists e.2 hne with ⟨w, hw, hwmem⟩
  rw [hw]
  rw [hg] at hwmem
  rcases List.mem_map.mp hwmem with ⟨p, hp, hsnd⟩
  have hfst : p.1 = e.1 := by simpa using (List.mem_filter.mp hp).2
  rcases annotate_mem rand A 0 p (List.mem_filter.mp hp).1 with ⟨pv, hpe⟩ | ⟨seg, i, _, hpe⟩
  · rw [hpe] at hsnd hfst
    rw [← hsnd, ← hfst]
    rfl
  · rw [hpe] at hsnd hfst
    rw [← hsnd, ← hfst]
    rfl

/-- The deduplicated output has pairwise distinct scaled-coordinate pairs
among its PlaceVisits. -/
theorem dedup_coordKeys_nodup (rand : Nat → Nat) (hinj : Function.Injective rand)
    (l : List TimelineObject) :
    ((dedupPass rand l).filterMap coordKey).Nodup := by
  rw [dedupPass_eq, pass2_eq rand hinj]
  rw [survivors_filterMap_keys _ coordKey keyCoord
    (fun e he => pass2_entry_coordKey rand _ e he)]
  exact (groupByKey_keys_nodup _).filterMap
    (fun k k2 q hq hq2 => keyCoord_inj k k2 q hq hq2)

theorem survivors_subperm {κ : Type} (m : List (κ × List TimelineObject)) :
    (↑(survivors m) : Multiset TimelineObject) ≤ ↑((m.map (fun e => e.2)).flatten) := by
  rw [Multiset.le_iff_count]
  intro o
  induction m with
  | nil => simp [survivors]
  | cons e m ih =>
    rw [survivors, List.map_cons, List.flatten_cons, List.map_cons, List.flatten_cons]
    rw [← Multiset.coe_add, ← Multiset.coe_add, Multiset.count_add, Multiset.count_add]
    rw [show ((m.map (fun e => pickSurvivor e.2)).flatten) = survivors m from rfl]
    have := pickSurvivor_count_le e.2 o
    omega

theorem pass1_entry_usableKey (l : List TimelineObject)
    (e : String × List TimelineObject) (he : e ∈ groupByKey (pass1Keyed l)) :
    (pickSurvivor e.2).filterMap usableKey = (some e.1).toList := by
  rcases groupByKey_mem _ e he with ⟨_, hg⟩
  have hne := groupByKey_groups_ne_nil _ e he
  rcases pickSurvivor_exists e.2 hne with ⟨w, hw, hwmem⟩
  rw [hw]
  rw [hg] at hwmem
  rcases List.mem_map.mp hwmem with ⟨p, hp, hsnd⟩
  have hfst : p.1 = e.1 := by simpa using (List.mem_filter.mp hp).2
  have hkey := (pass1Keyed_mem l p (List.mem_filter.mp hp).1).1
  rw [hsnd, hfst] at hkey
  rw [List.filterMap_cons, hkey]
  rfl

/-- The first pass's full output has pairwise distinct usable placeIds. -/
theorem pass1_keys_nodup (l : List TimelineObject) :
    ((survivors (pass1 l).1 ++ (pass1 l).2).filterMap usableKey).Nodup := by
  rw [pass1_eq]
  rw [List.filterMap_append]
  have h2 : (l.filter (fun o => usableKey o = none)).filterMap usableKey = [] := by
    rw [List.filterMap_eq_nil_iff]
    intro o ho
    simpa using (List.mem_filter.mp ho).2
  rw [h2]
  rw [survivors_filterMap_keys _ usableKey some (fun e he => pass1_entry_usableKey l e he)]
  rw [List.append_nil]
  rw [List.filterMap_some]
  exact groupByKey_keys_nodup _

/-- The deduplicated output has pairwise distinct usable placeIds. -/
theorem dedup_usableKeys_nodup (rand : Nat → Nat) (hinj : Function.Injective rand)
    (l : List TimelineObject) :
    ((dedupPass rand l).filterMap usableKey).Nodup := by
  have hA := pass1_keys_nodup l
  have hle : (↑(dedupPass rand l) : Multiset TimelineObject) ≤
      ↑(survivors (pass1 l).1 ++ (pass1 l).2) := by
    rw [dedupPass_eq, pass2_eq rand hinj]
    refine le_trans (survivors_subperm _) ?_
    have hflat := groupByKey_flatten_perm
      (annotate rand (survivors (pass1 l).1 ++ (pass1 l).2) 0)
    rw [annotate_map_snd] at hflat
    rw [Multiset.coe_eq_coe.mpr hflat]
  have hle2 := Multiset.filterMap_le_filterMap usableKey hle
  rw [show (Multiset.filterMap usableKey
      (↑(dedupPass rand l) : Multiset TimelineObject)) =
    ↑((dedupPass rand l).filterMap usableKey) from rfl] at hle2
  rw [show (Multiset.filterMap usableKey
      (↑(survivors (pass1 l).1 ++ (pass1 l).2) : Multiset TimelineObject)) =
    ↑((survivors (pass1 l).1 ++ (pass1 l).2).filterMap usableKey) from rfl] at hle2
  have hnd := Multiset.nodup_of_le hle2 (by rw [Multiset.coe_nodup]; exact hA)
  rw [Multiset.coe_nodup] at hnd
  exact hnd

/-- Claim C6: deduplication is idempotent — applying the two-pass merge to
the output of the two-pass merge removes zero additional records: the
second application's output length equals its input length, and through
cleanData the second application reports zero removed duplicates (the
random tag streams of both applications taken injective). -/
theorem c6_dedup_idempotent :
    ∀ (rand1 rand2 : Nat → Nat), Function.Injective rand1 → Function.Injective rand2 →
    ∀ (l : List TimelineObject),
      (dedupPass rand2 (dedupPass rand1 l)).length = (dedupPass rand1 l).length ∧
      (cleanData false true rand2
        (cleanData false true rand1 l).cleaned).stats.removedDuplicates = 0 := by
  intro rand1 rand2 hinj1 hinj2 l
  have h1 := dedup_usableKeys_nodup rand1 hinj1 l
  have h2 := dedup_coordKeys_nodup rand1 hinj1 l
  have hp1 := pass1_perm_of_nodup (dedupPass rand1 l) h1
  have hA2coord : ((survivors (pass1 (dedupPass rand1 l)).1 ++
      (pass1 (dedupPass rand1 l)).2).filterMap coordKey).Nodup := by
    rw [(hp1.filterMap coordKey).nodup_iff]
    exact h2
  have hp2 := pass2_perm_of_nodup rand2 hinj2 _ hA2coord
  have hfinal : (dedupPass rand2 (dedupPass rand1 l)).Perm (dedupPass rand1 l) := by
    rw [dedupPass_eq]
    exact hp2.trans hp1
  refine ⟨hfinal.length_eq, ?_⟩
  have hrd : (cleanData false true rand2
      (cleanData false true rand1 l).cleaned).stats.removedDuplicates =
      (dedupPass rand1 l).length - (dedupPass rand2 (dedupPass rand1 l)).length := rfl
  rw [hrd, hfinal.length_eq]
  exact Nat.sub_self _

/-- Witness for C6 at a concrete input. -/
theorem c6_dedup_idempotent_witness :
    (dedupPass (fun n => n + 1)
        (dedupPass (fun n => n) [visitC2, .activitySegment sampleSeg])).length =
      (dedupPass (fun n => n) [visitC2, .activitySegment sampleSeg]).length ∧
    (cleanData false true (fun n => n + 1)
      (cleanData false true (fun n => n)
        [visitC2, .activitySegment sampleSeg]).cleaned).stats.removedDuplicates = 0 :=
  c6_dedup_idempotent (fun n => n) (fun n => n + 1) (fun _ _ h => h)
    (fun _ _ h => Nat.succ_injective h) [visitC2, .activitySegment sampleSeg]

end Timeline
